import Mathlib

/-!
Verification of the PharmaRAG retrieval core: a shallow embedding of the
vector-store manager (`server/src/services/vectorStore.ts`, lazy variant, and
the placeholder variant of the same module), the RAG engine
(`server/src/services/ragEngine.ts`), the error middleware
(`server/src/middleware/errorHandler.ts`) and the HTTP route handlers, with
theorems settling the frozen behavioural claims.

Modelling conventions:
* An HNSWLib index is modelled by the ordered list of its stored documents.
  `similaritySearch(query, k)` is modelled as a stable sort of the stored
  documents by an abstract distance function from the query string, followed by
  `take k`; the stability of the insertion sort models the earliest-inserted
  tie-breaking.  The distance function is a parameter `dist : String → Doc → Nat`
  (the claims under study do not depend on metric properties).
* Module-level mutable variables become explicit state records threaded through
  the operations.
* Fallible external calls (the embedding provider, the index build, the
  generation model) are modelled with explicit outcome parameters; a JavaScript
  `throw` before an assignment is translated as an error result paired with the
  unchanged state.  Library calls such as `HNSWLib.addDocuments` are modelled as
  failing atomically (they embed before mutating the index).
-/

set_option maxRecDepth 4096

/-- A stored LangChain document: `pageContent` plus the metadata fields the
repository attaches (`source`, `page`, `chunkIndex`, `documentId`) and the
`isPlaceholder` marker used by the placeholder variant of the vector store. -/
structure Doc where
  pageContent : String
  source : String
  page : Nat
  chunkIndex : Nat
  documentId : String
  isPlaceholder : Bool
deriving DecidableEq

/-- Source attribution for RAG responses (`types/index.ts`). -/
structure Source where
  document : String
  page : Nat
deriving DecidableEq

/-- A conversation message (`types/index.ts`); only the fields the RAG engine
reads are modelled. -/
structure Message where
  role : String
  content : String
deriving DecidableEq

/-- A distance oracle: distance from (the embedding of) a query string to (the
embedding of) a stored document. -/
def DistFn : Type := String → Doc → Nat

/-- The comparison used to rank two stored documents against a query. -/
def distLe (dist : DistFn) (q : String) (a b : Doc) : Prop :=
  dist q a ≤ dist q b

instance (dist : DistFn) (q : String) : DecidableRel (distLe dist q) := by
  intro a b
  unfold distLe
  infer_instance

/-- Model of `store.similaritySearch(q, k)` on an HNSWLib index holding `l`:
the stored documents stably sorted by distance to the query, truncated to `k`. -/
def knn (dist : DistFn) (q : String) (k : Nat) (l : List Doc) : List Doc :=
  (l.insertionSort (distLe dist q)).take k

/-- The module-level state of `services/vectorStore.ts` (lazy variant): the
singleton `vectorStoreInstance` and the `isInitialized` flag. -/
structure LazyState where
  vectorStoreInstance : Option (List Doc)
  isInitialized : Bool
deriving DecidableEq

/-- The state before the module has ever been used. -/
def LazyState.initial : LazyState := { vectorStoreInstance := none, isInitialized := false }

/-- The records currently stored: the contents of the live index, `[]` when the
store is uninitialized. -/
def LazyState.records (s : LazyState) : List Doc :=
  match s.vectorStoreInstance, s.isInitialized with
  | some cur, true => cur
  | _, _ => []

namespace VectorStore

/-- Model of `addDocuments` (lazy variant): on first use the index is built
directly from `docs`; afterwards `docs` are appended to the live index. -/
def addDocuments (s : LazyState) (docs : List Doc) : LazyState :=
  match s.vectorStoreInstance, s.isInitialized with
  | some cur, true => { vectorStoreInstance := some (cur ++ docs), isInitialized := true }
  | _, _ => { vectorStoreInstance := some docs, isInitialized := true }

/-- Model of `similaritySearch` (lazy variant): `[]` when uninitialized,
otherwise the top-`k` documents. -/
def similaritySearch (dist : DistFn) (s : LazyState) (q : String) (k : Nat) : List Doc :=
  match s.vectorStoreInstance, s.isInitialized with
  | some cur, true => knn dist q k cur
  | _, _ => []

/-- Model of `deleteByDocumentId` (lazy variant): enumerate via
`similaritySearch('', 10000)`, keep the documents whose `documentId` differs,
rebuild (or reset to the uninitialized state when nothing remains) and return
the removed count. -/
def deleteByDocumentId (dist : DistFn) (s : LazyState) (documentId : String) :
    Nat × LazyState :=
  match s.vectorStoreInstance, s.isInitialized with
  | some cur, true =>
    let allDocs := knn dist "" 10000 cur
    let remainingDocs := allDocs.filter (fun doc => doc.documentId ≠ documentId)
    let deletedCount := allDocs.length - remainingDocs.length
    if remainingDocs.length > 0 then
      (deletedCount, { vectorStoreInstance := some remainingDocs, isInitialized := true })
    else
      (deletedCount, { vectorStoreInstance := none, isInitialized := false })
  | _, _ => (0, s)

/-- Model of `getDocumentCount` (lazy variant). -/
def getDocumentCount (dist : DistFn) (s : LazyState) : Nat :=
  match s.vectorStoreInstance, s.isInitialized with
  | some cur, true => (knn dist "" 10000 cur).length
  | _, _ => 0

/-- Model of `isEmpty` (lazy variant). -/
def isEmpty (s : LazyState) : Bool :=
  !s.isInitialized || s.vectorStoreInstance.isNone

/-- Model of `reset` (lazy variant). -/
def reset : LazyState := { vectorStoreInstance := none, isInitialized := false }

end VectorStore

namespace VectorStore

/-- Fallible model of `addDocuments`: both branches await a library call
(`HNSWLib.fromDocuments` or `store.addDocuments`) that embeds the new documents
and may throw; the throw happens before any assignment to the module state, so
an error leaves the state unchanged. -/
def addDocumentsE (buildOk : Bool) (s : LazyState) (docs : List Doc) :
    Except String Unit × LazyState :=
  match s.vectorStoreInstance, s.isInitialized with
  | some cur, true =>
    if buildOk then (Except.ok (), { vectorStoreInstance := some (cur ++ docs), isInitialized := true })
    else (Except.error ("embedding call failed"), s)
  | _, _ =>
    if buildOk then (Except.ok (), { vectorStoreInstance := some docs, isInitialized := true })
    else (Except.error ("embedding call failed"), s)

/-- Fallible model of `similaritySearch`: an uninitialized store returns `[]`
before any provider call; otherwise the query embedding may fail with the
provider's message. -/
def similaritySearchE (dist : DistFn) (embedResult : Except String Unit) (s : LazyState)
    (q : String) (k : Nat) : Except String (List Doc) :=
  match s.vectorStoreInstance, s.isInitialized with
  | some cur, true =>
    match embedResult with
    | Except.ok _ => Except.ok (knn dist q k cur)
    | Except.error m => Except.error m
  | _, _ => Except.ok []

/-- Fallible model of `deleteByDocumentId`: `getEmbeddings()` may throw
(`cfgOk`), the enumeration query embedding may fail (`enumOk`), and the rebuild
`HNSWLib.fromDocuments` may fail (`buildOk`); each throw precedes the
assignment to the module state. -/
def deleteByDocumentIdE (dist : DistFn) (cfgOk enumOk buildOk : Bool) (s : LazyState)
    (documentId : String) : Except String Nat × LazyState :=
  match s.vectorStoreInstance, s.isInitialized with
  | some cur, true =>
    if !cfgOk then (Except.error ("GOOGLE_API_KEY is not configured"), s)
    else if !enumOk then (Except.error ("embedding call failed"), s)
    else
      let allDocs := knn dist "" 10000 cur
      let remainingDocs := allDocs.filter (fun doc => doc.documentId ≠ documentId)
      let deletedCount := allDocs.length - remainingDocs.length
      if remainingDocs.length > 0 then
        if buildOk then
          (Except.ok deletedCount, { vectorStoreInstance := some remainingDocs, isInitialized := true })
        else (Except.error ("index build failed"), s)
      else (Except.ok deletedCount, { vectorStoreInstance := none, isInitialized := false })
  | _, _ => (Except.ok 0, s)

end VectorStore

/-- The sentinel document the placeholder variant seeds its index with. -/
def placeholderDoc : Doc :=
  { pageContent := "__INIT__", source := "", page := 0, chunkIndex := 0,
    documentId := "", isPlaceholder := true }

namespace VectorStoreB

/-- Model of `getInstance` in the placeholder variant of `vectorStore.ts`
(sequential semantics): returns the live index, creating a store holding only
the sentinel on first use. -/
def getInstance (s : Option (List Doc)) : List Doc × Option (List Doc) :=
  match s with
  | some cur => (cur, some cur)
  | none => ([placeholderDoc], some [placeholderDoc])

/-- Model of `addDocuments` in the placeholder variant. -/
def addDocuments (s : Option (List Doc)) (docs : List Doc) : Option (List Doc) :=
  let r := getInstance s
  some (r.1 ++ docs)

/-- Model of `similaritySearch` in the placeholder variant: fetch `k + 1`
results, filter out the sentinel, keep at most `k`. -/
def similaritySearch (dist : DistFn) (s : Option (List Doc)) (q : String) (k : Nat) :
    List Doc × Option (List Doc) :=
  let r := getInstance s
  (((knn dist q (k + 1) r.1).filter (fun doc => !doc.isPlaceholder)).take k, r.2)

/-- Model of `deleteByDocumentId` in the placeholder variant; the returned
count is `allDocs.length - remainingDocs.length - 1` (an `Int`, since the
JavaScript subtraction can go negative once the sentinel is gone). -/
def deleteByDocumentId (dist : DistFn) (s : Option (List Doc)) (documentId : String) :
    Int × Option (List Doc) :=
  let r := getInstance s
  let allDocs := knn dist "" 10000 r.1
  let remainingDocs := allDocs.filter
    (fun doc => decide (doc.documentId ≠ documentId) && !doc.isPlaceholder)
  let deletedCount : Int := (allDocs.length : Int) - (remainingDocs.length : Int) - 1
  if remainingDocs.length > 0 then (deletedCount, some remainingDocs)
  else (deletedCount, some [placeholderDoc])

/-- Model of `getDocumentCount` in the placeholder variant. -/
def getDocumentCount (dist : DistFn) (s : Option (List Doc)) : Nat × Option (List Doc) :=
  let r := getInstance s
  (((knn dist "" 10000 r.1).filter (fun doc => !doc.isPlaceholder)).length, r.2)

end VectorStoreB

/-- Model of the JavaScript string fallback `s || fallback` ("" is falsy). -/
def jsOrString (s fallback : String) : String :=
  if s = "" then fallback else s

/-- Model of the JavaScript numeric fallback `n || fallback` (0 is falsy). -/
def jsOrNat (n fallback : Nat) : Nat :=
  if n = 0 then fallback else n

/-- Model of JavaScript `s.includes(pat)`: `pat` occurs as a contiguous
substring of `s`.  Written over character lists so it evaluates in the kernel
(core `String.splitOn` recursion on byte positions does not). -/
def jsIncludes (s pat : String) : Bool :=
  s.data.tails.any (fun t => pat.data.isPrefixOf t)

/-- Model of JavaScript `s.trim()`: strip leading and trailing whitespace.
Written over the character list (rather than core `String.trim`, whose
byte-position recursion does not reduce in the kernel). -/
def jsTrim (s : String) : String :=
  { data := ((s.data.dropWhile Char.isWhitespace).reverse.dropWhile Char.isWhitespace).reverse }

/-- Model of JavaScript `s.replace(pat, repl)` with a string pattern: only the
first occurrence is replaced. -/
def replaceFirst (s pat repl : String) : String :=
  match s.splitOn pat with
  | [] => s
  | [x] => x
  | x :: rest => x ++ repl ++ String.intercalate pat rest

/-- Chat response shape (`types/index.ts`). -/
structure ChatResponse where
  answer : String
  sources : List Source
  disclaimer : String
deriving DecidableEq

/-- The fixed insufficient-information message `NO_DOCUMENTS_MESSAGE` exported
by the safety-prompt module (`prompts/systemPrompt.ts`), returned verbatim by
`query` when the search yields no documents. -/
def NO_DOCUMENTS_MESSAGE : String :=
  "I cannot find relevant information in the uploaded documents to answer your question.\n" ++
  "\n" ++
  "Please try one of the following:\n" ++
  "1. Upload additional drug leaflets that may contain the information you need\n" ++
  "2. Rephrase your question with more specific terms\n" ++
  "3. Consult a healthcare professional or pharmacist for accurate medical information\n" ++
  "\n" ++
  "⚠️ This information is for reference only. Always consult a healthcare professional before making medication decisions."

/-- The fixed disclaimer `DISCLAIMER` exported by the safety-prompt module
(`prompts/systemPrompt.ts`), attached to every chat response. -/
def DISCLAIMER : String :=
  "⚠️ This information is for reference only. Always consult a healthcare professional before making medication decisions."

/-- The prompt template `SYSTEM_PROMPT` exported by the safety-prompt module
(`prompts/systemPrompt.ts`), with `context`, `history` and `question` slots. -/
def SYSTEM_PROMPT : String :=
  "You are PharmaRAG, a pharmaceutical information assistant.\n" ++
  "\n" ++
  "CRITICAL SAFETY RULES - YOU MUST FOLLOW THESE:\n" ++
  "1. You may ONLY answer questions based on the provided document context below.\n" ++
  "2. If the answer is not found in the provided documents, you MUST respond: \"I cannot find this information in the uploaded documents. Please consult a healthcare professional or pharmacist.\"\n" ++
  "3. NEVER guess, speculate, or provide information from your training data.\n" ++
  "4. NEVER provide medical advice, dosage recommendations, or treatment suggestions.\n" ++
  "5. Always remind users to consult healthcare professionals for medical decisions.\n" ++
  "\n" ++
  "RESPONSE FORMAT:\n" ++
  "- Provide clear, factual answers based solely on the document context.\n" ++
  "- Cite the source document and page number for each piece of information.\n" ++
  "- Use format: \"According to [Document Name], Page [X]: ...\"\n" ++
  "- End every response with the disclaimer below.\n" ++
  "\n" ++
  "CONTEXT FROM UPLOADED DOCUMENTS:\n" ++
  "\x7bcontext\x7d\n" ++
  "\n" ++
  "CONVERSATION HISTORY:\n" ++
  "\x7bhistory\x7d\n" ++
  "\n" ++
  "USER QUESTION: \x7bquestion\x7d\n" ++
  "\n" ++
  "Remember: End your response with this disclaimer:\n" ++
  "⚠️ This information is for reference only. Always consult a healthcare professional before making medication decisions."

namespace RagEngine

/-- Model of `formatContext` in `ragEngine.ts`. -/
def formatContext (docs : List Doc) : String :=
  String.intercalate ("\n\n") <| docs.enum.map (fun p =>
    let source := jsOrString p.2.source ("Unknown Document")
    let page := jsOrNat p.2.page 1
    "[Document " ++ toString (p.1 + 1) ++ ": " ++ source ++ ", Page " ++ toString page
      ++ "]\n" ++ p.2.pageContent ++ "\n---")

/-- Model of `formatHistory` in `ragEngine.ts`. -/
def formatHistory (messages : List Message) : String :=
  if messages.length = 0 then ""
  else
    String.intercalate ("\n") <| messages.map (fun msg =>
      let role := if msg.role = ("user") then ("User" : String) else ("Assistant" : String)
      role ++ (": ") ++ msg.content)

/-- The string key `source-page` used by `extractSources` for its `Map`. -/
def sourceKey (source : String) (page : Nat) : String :=
  source ++ "-" ++ toString page

/-- Model of `extractSources` in `ragEngine.ts`: a JavaScript `Map` keyed by
the string `source-page` is an insertion-ordered association list; taking its
values preserves first-seen order. -/
def extractSources (docs : List Doc) : List Source :=
  (docs.foldl (fun sourceMap doc =>
      let source := jsOrString doc.source ("Unknown")
      let page := jsOrNat doc.page 1
      let key := sourceKey source page
      if sourceMap.any (fun e => e.1 = key) then sourceMap
      else sourceMap ++ [(key, ({ document := source, page := page } : Source))])
    ([] : List (String × Source))).map Prod.snd

/-- Errors thrown out of the RAG engine or route layer. -/
inductive Thrown where
  | validationErr (msg : String)
  | genericErr (msg : String)
deriving DecidableEq

/-- Model of `query` in `ragEngine.ts`.  The second component records whether
the generation model was invoked.  `embedResult` is the outcome of the query
embedding, `llmCfgOk` whether `getLLM()` finds its API key, `llmResult` the
outcome of `llm.invoke`. -/
def queryE (dist : DistFn) (embedResult : Except String Unit) (llmCfgOk : Bool)
    (llmResult : Except String String) (s : LazyState) (question : String)
    (conversationHistory : List Message) : Except Thrown ChatResponse × Bool :=
  match VectorStore.similaritySearchE dist embedResult s question 4 with
  | Except.error m => (Except.error (Thrown.genericErr m), false)
  | Except.ok relevantDocs =>
    if relevantDocs.length = 0 then
      (Except.ok { answer := NO_DOCUMENTS_MESSAGE, sources := [], disclaimer := DISCLAIMER },
        false)
    else
      let context := formatContext relevantDocs
      let history := formatHistory
        (conversationHistory.drop (conversationHistory.length - 10))
      let _promptText := replaceFirst (replaceFirst (replaceFirst SYSTEM_PROMPT
        ("\x7bcontext\x7d") context) ("\x7bhistory\x7d")
        (jsOrString history ("No previous conversation."))) ("\x7bquestion\x7d") question
      if !llmCfgOk then
        (Except.error (Thrown.genericErr ("GOOGLE_API_KEY is not configured")), false)
      else
        match llmResult with
        | Except.error _ =>
          (Except.error (Thrown.genericErr ("Failed to generate response from AI service")),
            true)
        | Except.ok response =>
          (Except.ok ({ answer := response,
                        sources := extractSources relevantDocs,
                        disclaimer := DISCLAIMER }), true)

end RagEngine

/-- The error classes of `middleware/errorHandler.ts` plus the generic case. -/
inductive AppError where
  | validation (msg : String)
  | notFound (msg : String)
  | llm (msg : String)
  | multer (msg : String)
  | other (msg : String)
deriving DecidableEq

/-- The JSON error response paired with its HTTP status code. -/
structure ErrResponse where
  statusCode : Nat
  error : String
  details : String
deriving DecidableEq

/-- Model of the `errorHandler` middleware: the status code and label chosen
for each error class. -/
def errorHandler : AppError → ErrResponse
  | AppError.validation m => { statusCode := 400, error := "Validation error", details := m }
  | AppError.notFound m => { statusCode := 404, error := "Not found", details := m }
  | AppError.llm m => { statusCode := 503, error := "AI service unavailable", details := m }
  | AppError.multer m => { statusCode := 400, error := "File upload error", details := m }
  | AppError.other m => { statusCode := 500, error := "Internal server error", details := m }

/-- The error wrapping of the `POST /api/chat` route `catch` block composed
with the error middleware: thrown `ValidationError`s keep their class, other
errors become `LLMError` exactly when their message contains `AI service`. -/
def routeWrap (r : Except RagEngine.Thrown ChatResponse) : ErrResponse ⊕ ChatResponse :=
  match r with
  | Except.ok resp => Sum.inr resp
  | Except.error (RagEngine.Thrown.validationErr m) =>
    Sum.inl (errorHandler (AppError.validation m))
  | Except.error (RagEngine.Thrown.genericErr m) =>
    if jsIncludes m ("AI service") then Sum.inl (errorHandler (AppError.llm m))
    else Sum.inl (errorHandler (AppError.other m))

/-- Model of the `POST /api/chat` route handler: validation of the question,
the call into `query`, and the wrapping of thrown errors (`LLMError` only for
messages containing the substring `AI service`) before the error middleware. -/
def chatHandler (dist : DistFn) (embedResult : Except String Unit) (llmCfgOk : Bool)
    (llmResult : Except String String) (s : LazyState) (question : String)
    (conversationHistory : List Message) : ErrResponse ⊕ ChatResponse :=
  if jsTrim question = "" then
    Sum.inl (errorHandler
      (AppError.validation ("Question is required and must be a non-empty string")))
  else
    match (RagEngine.queryE dist embedResult llmCfgOk llmResult s (jsTrim question)
        conversationHistory).1 with
    | Except.ok resp => Sum.inr resp
    | Except.error (RagEngine.Thrown.validationErr m) =>
      Sum.inl (errorHandler (AppError.validation m))
    | Except.error (RagEngine.Thrown.genericErr m) =>
      if jsIncludes m ("AI service") then Sum.inl (errorHandler (AppError.llm m))
      else Sum.inl (errorHandler (AppError.other m))

/-- Model of the `DELETE /api/documents/:id` route handler: unknown ids become
`NotFoundError` (404); errors thrown by the vector store reach the error
middleware as generic errors. -/
def deleteDocumentHandler (dist : DistFn) (cfgOk enumOk buildOk : Bool)
    (documentStore : List (String × Nat)) (s : LazyState) (id : String) :
    (ErrResponse ⊕ Nat) × LazyState :=
  match documentStore.lookup id with
  | none =>
    (Sum.inl (errorHandler (AppError.notFound ("Document with ID " ++ id ++ " not found"))), s)
  | some _ =>
    let r := VectorStore.deleteByDocumentIdE dist cfgOk enumOk buildOk s id
    match r.1 with
    | Except.ok deletedChunks => (Sum.inr deletedChunks, r.2)
    | Except.error m => (Sum.inl (errorHandler (AppError.other m)), r.2)

/-- The public operations of the Vector Index Manager, for trace-based claims. -/
inductive Op where
  | insert (docs : List Doc)
  | search (q : String) (k : Nat)
  | delete (documentId : String)
deriving DecidableEq

/-- The output observed at the public interface for one operation.  Deleted
counts are integers because the placeholder variant computes its count with a
subtraction that can go negative. -/
inductive Out where
  | added
  | searched (docs : List Doc)
  | deleted (n : Int)
deriving DecidableEq

/-- One step of the lazy vector store, with its observable output. -/
def applyOp (dist : DistFn) (s : LazyState) : Op → LazyState × Out
  | Op.insert docs => (VectorStore.addDocuments s docs, Out.added)
  | Op.search q k => (s, Out.searched (VectorStore.similaritySearch dist s q k))
  | Op.delete d =>
    let r := VectorStore.deleteByDocumentId dist s d
    (r.2, Out.deleted (r.1 : Int))

/-- Run a call sequence against the lazy vector store, collecting outputs. -/
def runOps (dist : DistFn) (s : LazyState) : List Op → LazyState × List Out
  | [] => (s, [])
  | op :: rest =>
    let r := applyOp dist s op
    let rr := runOps dist r.1 rest
    (rr.1, r.2 :: rr.2)

/-- One step of the placeholder-variant vector store, with its output. -/
def applyOpB (dist : DistFn) (s : Option (List Doc)) : Op → Option (List Doc) × Out
  | Op.insert docs => (VectorStoreB.addDocuments s docs, Out.added)
  | Op.search q k =>
    let r := VectorStoreB.similaritySearch dist s q k
    (r.2, Out.searched r.1)
  | Op.delete d =>
    let r := VectorStoreB.deleteByDocumentId dist s d
    (r.2, Out.deleted r.1)

/-- Run a call sequence against the placeholder-variant vector store. -/
def runOpsB (dist : DistFn) (s : Option (List Doc)) : List Op → Option (List Doc) × List Out
  | [] => (s, [])
  | op :: rest =>
    let r := applyOpB dist s op
    let rr := runOpsB dist r.1 rest
    (rr.1, r.2 :: rr.2)

/-- The records a trace should leave in the index according to the spec: every
inserted record that has not been removed by a later delete of its document. -/
def applySpec (acc : List Doc) : Op → List Doc
  | Op.insert docs => acc ++ docs
  | Op.search _ _ => acc
  | Op.delete d => acc.filter (fun doc => doc.documentId ≠ d)

/-- Inserted-and-not-deleted records of a whole trace. -/
def specRecords (ops : List Op) : List Doc :=
  ops.foldl applySpec []

/-- Wellformedness of one step: inserts are non-empty (the spec's `Insert`
precondition) and deletes run while at most 10000 records are stored (so the
fixed enumeration bound in the code returns everything). -/
def okStep (s : LazyState) : Op → Bool
  | Op.insert docs => !docs.isEmpty
  | Op.search _ _ => true
  | Op.delete _ => s.records.length ≤ 10000

/-- Wellformedness of a trace against the lazy store, checked step by step. -/
def okTrace (dist : DistFn) : LazyState → List Op → Bool
  | _, [] => true
  | s, op :: rest => okStep s op && okTrace dist (applyOp dist s op).1 rest

namespace VectorStore

/-- The texts `addDocuments` sends to the embedding provider: both the
first-time `HNSWLib.fromDocuments` branch and the append branch embed exactly
the inserted documents. -/
def addDocumentsEmbeds (docs : List Doc) : List String :=
  docs.map Doc.pageContent

/-- The texts `similaritySearch` sends to the embedding provider: nothing when
the store is uninitialized, the query otherwise. -/
def similaritySearchEmbeds (s : LazyState) (q : String) : List String :=
  match s.vectorStoreInstance, s.isInitialized with
  | some _, true => [q]
  | _, _ => []

/-- The texts `deleteByDocumentId` sends to the embedding provider: nothing
when the store is uninitialized; otherwise the enumeration query `''` and, when
records remain, every surviving record's text again (the rebuild calls
`HNSWLib.fromDocuments` on the remaining documents). -/
def deleteByDocumentIdEmbeds (dist : DistFn) (s : LazyState) (documentId : String) :
    List String :=
  match s.vectorStoreInstance, s.isInitialized with
  | some cur, true =>
    let allDocs := knn dist "" 10000 cur
    let remainingDocs := allDocs.filter (fun doc => doc.documentId ≠ documentId)
    if remainingDocs.length > 0 then "" :: remainingDocs.map Doc.pageContent
    else [""]
  | _, _ => []

end VectorStore

/-- One step of the lazy store together with the texts sent to the embedding
provider during that step. -/
def applyOpEmb (dist : DistFn) (s : LazyState) : Op → LazyState × List String
  | Op.insert docs => (VectorStore.addDocuments s docs, VectorStore.addDocumentsEmbeds docs)
  | Op.search q _ => (s, VectorStore.similaritySearchEmbeds s q)
  | Op.delete d =>
    ((VectorStore.deleteByDocumentId dist s d).2, VectorStore.deleteByDocumentIdEmbeds dist s d)

/-- Run a call sequence, collecting every text sent to the embedding provider. -/
def runOpsEmb (dist : DistFn) (s : LazyState) : List Op → LazyState × List String
  | [] => (s, [])
  | op :: rest =>
    let r := applyOpEmb dist s op
    let rr := runOpsEmb dist r.1 rest
    (rr.1, r.2 ++ rr.2)

/-- Program counter of one asynchronous caller of `addDocuments` (lazy
variant): `start` before the synchronous initialization check, `building`
while awaiting `initializeWithDocuments`, `appending` while awaiting
`store.addDocuments`, `finished` after resuming and publishing. -/
inductive CallerPc where
  | start
  | building
  | appending
  | finished
deriving DecidableEq

/-- One asynchronous caller of `addDocuments` and its pending documents. -/
structure Caller where
  docs : List Doc
  pc : CallerPc
deriving DecidableEq

/-- Interleaving state of two concurrent `addDocuments` calls: the shared
module state, a counter of index builds started, and both callers. -/
structure ConcState where
  store : LazyState
  buildsStarted : Nat
  caller0 : Caller
  caller1 : Caller
deriving DecidableEq

/-- One atomic step of a caller executing `addDocuments`: the synchronous
check-and-branch (which starts a build when the store is uninitialized), or the
resumption after the awaited library call, which publishes its result. -/
def stepAdd (c : Caller) (g : LazyState) (builds : Nat) : Caller × LazyState × Nat :=
  match c.pc with
  | CallerPc.start =>
    match g.vectorStoreInstance, g.isInitialized with
    | some _, true => ({ c with pc := CallerPc.appending }, g, builds)
    | _, _ => ({ c with pc := CallerPc.building }, g, builds + 1)
  | CallerPc.building =>
    ({ c with pc := CallerPc.finished },
      { vectorStoreInstance := some c.docs, isInitialized := true }, builds)
  | CallerPc.appending =>
    ({ c with pc := CallerPc.finished },
      { vectorStoreInstance := some (g.records ++ c.docs), isInitialized := true }, builds)
  | CallerPc.finished => (c, g, builds)

/-- Scheduler step: `false` advances caller 0, `true` advances caller 1. -/
def stepConc (s : ConcState) : Bool → ConcState
  | false =>
    let r := stepAdd s.caller0 s.store s.buildsStarted
    { store := r.2.1, buildsStarted := r.2.2, caller0 := r.1, caller1 := s.caller1 }
  | true =>
    let r := stepAdd s.caller1 s.store s.buildsStarted
    { store := r.2.1, buildsStarted := r.2.2, caller0 := s.caller0, caller1 := r.1 }

/-- Run a schedule (a list of scheduler choices) over the interleaving state. -/
def runConc (s : ConcState) : List Bool → ConcState
  | [] => s
  | b :: rest => runConc (stepConc s b) rest

/-- Specification-side deduplication, written from the spec's words: keep one
`Source` per distinct (document, page) pair, first occurrence first, in the
order of the records. -/
def pairDedup (l : List Source) : List Source :=
  l.foldl (fun acc s =>
    if acc.any (fun t => t.document = s.document && t.page = s.page) then acc
    else acc ++ [s]) []

/-- A degenerate distance oracle that ranks every document equally; with the
stable sort this makes `knn` a pure prefix operation, convenient for concrete
evaluations. -/
def distZero : DistFn := fun _ _ => 0

/-- Numeric value of a decimal digit character. -/
def charDigitVal (c : Char) : Nat := c.toNat - 48

/-- Value of a big-endian decimal digit string. -/
def digitsVal (l : List Char) : Nat :=
  l.foldl (fun acc c => acc * 10 + charDigitVal c) 0

/-- A single chunk of document `A`. -/
def docA : Doc :=
  { pageContent := "alpha", source := "a.pdf", page := 1, chunkIndex := 0,
    documentId := "A", isPlaceholder := false }

/-- The `i`-th chunk of document `B`. -/
def mkB (i : Nat) : Doc :=
  { pageContent := "beta", source := "b.pdf", page := 1, chunkIndex := i,
    documentId := "B", isPlaceholder := false }

/-- A store holding one chunk of document `A` and 10000 chunks of document
`B`: one more record than the enumeration bound. -/
def bigStoreC2 : List Doc := docA :: (List.range 10000).map mkB

/-- A store holding 10001 distinct chunks of document `B`. -/
def hugeStoreC5 : List Doc := (List.range 10001).map mkB

/-- A trace inserting 10001 records and then deleting document `A`. -/
def opsC4 : List Op := [Op.insert (docA :: (List.range 10000).map mkB), Op.delete ("A")]

/-- All texts inserted by a trace, in insertion order. -/
def insertedTexts : List Op → List String
  | [] => []
  | Op.insert docs :: rest => docs.map Doc.pageContent ++ insertedTexts rest
  | _ :: rest => insertedTexts rest

/-- Two concurrent first inserts racing from the fresh module state. -/
def concInit : ConcState :=
  { store := LazyState.initial, buildsStarted := 0,
    caller0 := { docs := [docA], pc := CallerPc.start },
    caller1 := { docs := [mkB 0], pc := CallerPc.start } }

/-- The schedule that runs both callers' synchronous initialization checks
before either awaited build resolves, then lets both builds publish. -/
def raceSchedule : List Bool := [false, true, false, true]

/-- Placeholder-free record list. -/
def noPh (l : List Doc) : Prop := ∀ d ∈ l, d.isPlaceholder = false

/-- Number of `delete` operations in a trace. -/
def numDeletes : List Op → Nat
  | [] => 0
  | Op.delete _ :: rest => numDeletes rest + 1
  | _ :: rest => numDeletes rest

/-- Wellformedness of one step for the equivalence claim: inserts are
non-empty and free of sentinel-marked documents, and deletes run with at most
9999 records stored (so both stores, one of which also holds the sentinel,
stay within the 10000-result enumeration bound). -/
def okStepC6 (s : LazyState) : Op → Bool
  | Op.insert docs => !docs.isEmpty && docs.all (fun d => !d.isPlaceholder)
  | Op.search _ _ => true
  | Op.delete _ => s.records.length ≤ 9999

/-- Wellformedness of a whole trace, checked along the lazy-variant run. -/
def okTraceC6 (dist : DistFn) : LazyState → List Op → Bool
  | _, [] => true
  | s, op :: rest => okStepC6 s op && okTraceC6 dist (applyOp dist s op).1 rest

/-- Simulation relation between the lazy store and the placeholder store:
either both are (logically) empty, or both are live on the same
placeholder-free records, the placeholder store possibly still carrying its
sentinel in front; once the sentinel is gone (dropped by a rebuild) the stores
coincide, but then no further delete may occur (`delBudget = 0`) for the
deleted counts to keep matching. -/
def SimC6 (sA : LazyState) (sB : Option (List Doc)) (delBudget : Nat) : Prop :=
  (sA = LazyState.initial ∧ (sB = none ∨ sB = some [placeholderDoc])) ∨
  (∃ l, l ≠ [] ∧ noPh l ∧
    sA = { vectorStoreInstance := some l, isInitialized := true } ∧
    (sB = some (placeholderDoc :: l) ∨ (sB = some l ∧ delBudget = 0)))

/-- Relation between a reachable module state and the spec-side list of
inserted-and-not-deleted records: either the store is live, non-empty, and
holds a permutation of the expected records, or it is the uninitialized state
and no records are expected. -/
def StoreInv (s : LazyState) (acc : List Doc) : Prop :=
  (∃ l, s = { vectorStoreInstance := some l, isInitialized := true } ∧ l ≠ [] ∧ l.Perm acc) ∨
  (s = LazyState.initial ∧ acc = [])

section SortLemmas

variable {α : Type} (r : α → α → Prop) [DecidableRel r]

lemma orderedInsert_eq_cons (x : α) (l : List α) (h : ∀ z ∈ l, r x z) :
    l.orderedInsert r x = x :: l := by
  cases l with
  | nil => rfl
  | cons y ys => exact List.orderedInsert_of_le r ys (h y (List.mem_cons_self y ys))

lemma filter_orderedInsert_sorted (trans : ∀ a b c : α, r a b → r b c → r a c)
    (p : α → Bool) (x : α) :
    ∀ l : List α, l.Sorted r →
      (l.orderedInsert r x).filter p =
        if p x then (l.filter p).orderedInsert r x else l.filter p := by
  intro l
  induction l with
  | nil =>
    intro _
    by_cases hx : p x <;> simp [List.orderedInsert, hx]
  | cons y ys ih =>
    intro hs
    by_cases hxy : r x y
    · have hLHS : (y :: ys).orderedInsert r x = x :: y :: ys :=
        List.orderedInsert_of_le r ys hxy
      rw [hLHS]
      by_cases hx : p x
      · have hall : ∀ z ∈ (y :: ys).filter p, r x z := by
          intro z hz
          have hz2 := List.mem_of_mem_filter hz
          rcases List.mem_cons.mp hz2 with h1 | h1
          · exact h1 ▸ hxy
          · exact trans x y z hxy (List.rel_of_sorted_cons hs z h1)
        rw [if_pos hx, orderedInsert_eq_cons r x _ hall]
        simp [List.filter_cons, hx]
      · rw [if_neg hx]
        simp [List.filter_cons, hx]
    · have hLHS : (y :: ys).orderedInsert r x = y :: ys.orderedInsert r x := by
        simp [List.orderedInsert, hxy]
      rw [hLHS]
      have ihy := ih hs.of_cons
      by_cases hx : p x
      · by_cases hy : p y
        · simp only [List.filter_cons, hy, if_true, hx, if_pos, ihy]
          simp [List.orderedInsert, hxy]
        · simp [List.filter_cons, hy, hx, ihy]
      · by_cases hy : p y
        · simp [List.filter_cons, hy, hx, ihy]
        · simp [List.filter_cons, hy, hx, ihy]

lemma filter_insertionSort_comm (total : ∀ a b : α, r a b ∨ r b a)
    (trans : ∀ a b c : α, r a b → r b c → r a c) (p : α → Bool) :
    ∀ l : List α, (l.insertionSort r).filter p = (l.filter p).insertionSort r := by
  intro l
  induction l with
  | nil => simp
  | cons x l ih =>
    have hsorted : (l.insertionSort r).Sorted r := by
      haveI : IsTotal α r := ⟨total⟩
      haveI : IsTrans α r := ⟨trans⟩
      exact List.sorted_insertionSort r l
    rw [List.insertionSort, filter_orderedInsert_sorted r trans p x _ hsorted, ih]
    by_cases hx : p x
    · simp [List.filter_cons, hx, List.insertionSort]
    · simp [List.filter_cons, hx]

lemma take_filter_take (p : α → Bool) :
    ∀ (M : List α) (n k : Nat), k ≤ n → M.countP (fun x => !p x) ≤ n - k →
      ((M.take n).filter p).take k = (M.filter p).take k := by
  intro M
  induction M with
  | nil => intro n k _ _; simp
  | cons x M ih =>
    intro n k hkn hcount
    cases n with
    | zero =>
      have : k = 0 := Nat.le_zero.mp hkn
      simp [this]
    | succ n =>
      rw [List.take_succ_cons]
      by_cases hx : p x
      · have hc : (x :: M).countP (fun y => !p y) = M.countP (fun y => !p y) := by
          rw [List.countP_cons]; simp [hx]
        simp only [List.filter_cons, hx, if_true]
        cases k with
        | zero => simp
        | succ k =>
          rw [List.take_succ_cons, List.take_succ_cons]
          congr 1
          exact ih n k (Nat.le_of_succ_le_succ hkn) (by omega)
      · have hc : (x :: M).countP (fun y => !p y) = M.countP (fun y => !p y) + 1 := by
          rw [List.countP_cons]; simp [hx]
        simp only [List.filter_cons, hx, if_false]
        exact ih n k (by omega) (by omega)

end SortLemmas

lemma distLe_total (dist : DistFn) (q : String) :
    ∀ a b : Doc, distLe dist q a b ∨ distLe dist q b a :=
  fun a b => Nat.le_total (dist q a) (dist q b)

lemma distLe_trans (dist : DistFn) (q : String) :
    ∀ a b c : Doc, distLe dist q a b → distLe dist q b c → distLe dist q a c :=
  fun _ _ _ h1 h2 => Nat.le_trans h1 h2

lemma knn_of_length_le (dist : DistFn) (q : String) (k : Nat) {l : List Doc}
    (h : l.length ≤ k) : knn dist q k l = l.insertionSort (distLe dist q) := by
  unfold knn
  apply List.take_of_length_le
  simpa using h

lemma knn_perm (dist : DistFn) (q : String) (k : Nat) {l : List Doc} (h : l.length ≤ k) :
    (knn dist q k l).Perm l := by
  rw [knn_of_length_le dist q k h]
  exact List.perm_insertionSort _ _

lemma insertionSort_distZero (q : String) (l : List Doc) :
    l.insertionSort (distLe distZero q) = l := by
  apply List.Sorted.insertionSort_eq
  apply List.pairwise_of_forall_mem_list
  intro a _ b _
  exact Nat.le_refl 0

lemma knn_distZero (q : String) (k : Nat) (l : List Doc) :
    knn distZero q k l = l.take k := by
  unfold knn
  rw [insertionSort_distZero]

lemma digitChar_ne_dash (n : Nat) : Nat.digitChar n ≠ '-' := by
  by_cases h : n < 16
  · interval_cases n <;> decide
  · unfold Nat.digitChar
    repeat rw [if_neg (by omega)]
    decide

lemma toDigitsCore_ne_dash :
    ∀ (fuel n : Nat) (ds : List Char), (∀ c ∈ ds, c ≠ '-') →
      ∀ c ∈ Nat.toDigitsCore 10 fuel n ds, c ≠ '-' := by
  intro fuel
  induction fuel with
  | zero =>
    intro n ds hds c hc
    exact hds c (by simpa [Nat.toDigitsCore] using hc)
  | succ fuel ih =>
    intro n ds hds c hc
    simp only [Nat.toDigitsCore] at hc
    by_cases h : n / 10 = 0
    · rw [if_pos h] at hc
      rcases List.mem_cons.mp hc with h1 | h1
      · exact h1 ▸ digitChar_ne_dash _
      · exact hds c h1
    · rw [if_neg h] at hc
      refine ih (n / 10) _ ?_ c hc
      intro d hd
      rcases List.mem_cons.mp hd with h1 | h1
      · exact h1 ▸ digitChar_ne_dash _
      · exact hds d h1

lemma toDigitsCore_append :
    ∀ (fuel n : Nat) (ds : List Char),
      Nat.toDigitsCore 10 fuel n ds = Nat.toDigitsCore 10 fuel n [] ++ ds := by
  intro fuel
  induction fuel with
  | zero => intro n ds; simp [Nat.toDigitsCore]
  | succ fuel ih =>
    intro n ds
    simp only [Nat.toDigitsCore]
    by_cases h : n / 10 = 0
    · simp [h]
    · rw [if_neg h, if_neg h, ih (n / 10) (Nat.digitChar (n % 10) :: ds),
        ih (n / 10) (Nat.digitChar (n % 10) :: [])]
      simp

lemma charDigitVal_digitChar {m : Nat} (h : m < 10) :
    charDigitVal (Nat.digitChar m) = m := by
  interval_cases m <;> decide

lemma digitsVal_append_single (l : List Char) (c : Char) :
    digitsVal (l ++ [c]) = digitsVal l * 10 + charDigitVal c := by
  unfold digitsVal
  rw [List.foldl_append]
  simp

lemma digitsVal_toDigitsCore :
    ∀ (fuel n : Nat), n < fuel → digitsVal (Nat.toDigitsCore 10 fuel n []) = n := by
  intro fuel
  induction fuel with
  | zero => intro n h; omega
  | succ fuel ih =>
    intro n h
    simp only [Nat.toDigitsCore]
    by_cases hz : n / 10 = 0
    · rw [if_pos hz]
      have hm : n % 10 < 10 := Nat.mod_lt _ (by omega)
      have hval : digitsVal [Nat.digitChar (n % 10)] = charDigitVal (Nat.digitChar (n % 10)) := by
        simp [digitsVal]
      rw [hval, charDigitVal_digitChar hm]
      omega
    · rw [if_neg hz, toDigitsCore_append fuel (n / 10) (Nat.digitChar (n % 10) :: []),
        digitsVal_append_single]
      have h1 : n / 10 < fuel := by omega
      rw [ih (n / 10) h1, charDigitVal_digitChar (Nat.mod_lt _ (by omega))]
      omega

lemma natRepr_inj {m n : Nat} (h : Nat.repr m = Nat.repr n) : m = n := by
  have hd : Nat.toDigits 10 m = Nat.toDigits 10 n := by
    have h2 := congrArg String.data h
    simpa [Nat.repr, List.asString] using h2
  have h1 := digitsVal_toDigitsCore (m + 1) m (Nat.lt_succ_self m)
  have h2 := digitsVal_toDigitsCore (n + 1) n (Nat.lt_succ_self n)
  unfold Nat.toDigits at hd
  rw [hd] at h1
  rw [h1] at h2
  exact h2

lemma natRepr_ne_dash (n : Nat) : ∀ c ∈ (Nat.repr n).data, c ≠ '-' := by
  intro c hc
  have hc2 : c ∈ Nat.toDigitsCore 10 (n + 1) n [] := by
    simpa [Nat.repr, List.asString, Nat.toDigits] using hc
  exact toDigitsCore_ne_dash (n + 1) n [] (by simp) c hc2

lemma append_dash_inj :
    ∀ (l1 l2 d1 d2 : List Char), (∀ c ∈ d1, c ≠ '-') → (∀ c ∈ d2, c ≠ '-') →
      l1 ++ '-' :: d1 = l2 ++ '-' :: d2 → l1 = l2 ∧ d1 = d2 := by
  intro l1
  induction l1 with
  | nil =>
    intro l2 d1 d2 h1 h2 h
    cases l2 with
    | nil => simpa using h
    | cons b l2 =>
      exfalso
      simp only [List.nil_append, List.cons_append, List.cons.injEq] at h
      apply h1 '-' _ rfl
      rw [h.2]
      exact List.mem_append_right _ (List.mem_cons_self _ _)
  | cons a l1 ih =>
    intro l2 d1 d2 h1 h2 h
    cases l2 with
    | nil =>
      exfalso
      simp only [List.nil_append, List.cons_append, List.cons.injEq] at h
      apply h2 '-' _ rfl
      rw [← h.2]
      exact List.mem_append_right _ (List.mem_cons_self _ _)
    | cons b l2 =>
      simp only [List.cons_append, List.cons.injEq] at h
      obtain ⟨hab, h'⟩ := h
      obtain ⟨hl, hd⟩ := ih l2 d1 d2 h1 h2 h'
      exact ⟨by rw [hab, hl], hd⟩

lemma string_data_inj {s t : String} (h : s.data = t.data) : s = t := by
  cases s
  cases t
  exact congrArg String.mk h

lemma sourceKey_inj {s1 s2 : String} {p1 p2 : Nat}
    (h : RagEngine.sourceKey s1 p1 = RagEngine.sourceKey s2 p2) : s1 = s2 ∧ p1 = p2 := by
  have hd : s1.data ++ '-' :: (Nat.repr p1).data = s2.data ++ '-' :: (Nat.repr p2).data := by
    have h2 := congrArg String.data h
    simp only [RagEngine.sourceKey, String.data_append] at h2
    simpa using h2
  obtain ⟨hs, hp⟩ := append_dash_inj _ _ _ _ (natRepr_ne_dash p1) (natRepr_ne_dash p2) hd
  refine ⟨?_, ?_⟩
  · exact string_data_inj hs
  · exact natRepr_inj (string_data_inj hp)

lemma mkB_inj {i j : Nat} (h : mkB i = mkB j) : i = j := by
  simpa [mkB] using congrArg Doc.chunkIndex h

/-- Claim C1: `Search` on an index that has never received an `Insert` (or was
emptied by deleting its last document, leaving the module uninitialized)
returns an empty result and never an error; and whenever a question's search
result is empty, `query` returns the fixed insufficient-information answer
with an empty source list and does not invoke the generation model. -/
theorem C1_empty_index_safety (dist : DistFn) (embedResult : Except String Unit)
    (llmCfgOk : Bool) (llmResult : Except String String) (s : LazyState)
    (q : String) (k : Nat) (hist : List Message)
    (hempty : s.isInitialized = false ∨ s.vectorStoreInstance = none) :
    VectorStore.similaritySearchE dist embedResult s q k = Except.ok [] ∧
    (∀ s2 : LazyState, ∀ question : String,
      VectorStore.similaritySearchE dist embedResult s2 question 4 = Except.ok [] →
      RagEngine.queryE dist embedResult llmCfgOk llmResult s2 question hist =
        (Except.ok ({ answer := NO_DOCUMENTS_MESSAGE, sources := [],
                      disclaimer := DISCLAIMER }), false)) := by
  constructor
  · rcases s with ⟨inst, init⟩
    rcases hempty with h | h
    · simp only at h
      subst h
      cases inst <;> rfl
    · simp only at h
      subst h
      cases init <;> rfl
  · intro s2 question hq
    unfold RagEngine.queryE
    rw [hq]
    rfl

/-- Witness for C1: the fresh module state, a concrete question. -/
theorem C1_empty_index_safety_witness :
    VectorStore.similaritySearchE distZero (Except.ok ()) LazyState.initial ("what") 4 =
      Except.ok [] ∧
    RagEngine.queryE distZero (Except.ok ()) true (Except.ok ("answer")) LazyState.initial
      ("what") [] =
      (Except.ok ({ answer := NO_DOCUMENTS_MESSAGE, sources := [],
                    disclaimer := DISCLAIMER }), false) := by
  have h := C1_empty_index_safety distZero (Except.ok ()) true (Except.ok ("answer"))
    LazyState.initial ("what") 4 [] (Or.inl rfl)
  exact ⟨h.1, h.2 LazyState.initial ("what") h.1⟩

/-- Claim C3: when the underlying build step of an `Insert` or
`DeleteByDocument` fails (embedding call or index construction), the operation
propagates the error and the previously published module state is unchanged;
with no failure the fallible operations agree with the pure model, so
subsequent calls operate on the expected state. -/
theorem C3_failure_preserves_state (dist : DistFn) (buildOk cfgOk enumOk dBuildOk : Bool)
    (s : LazyState) (docs : List Doc) (documentId : String) :
    (∀ e : String, (VectorStore.addDocumentsE buildOk s docs).1 = Except.error e →
      (VectorStore.addDocumentsE buildOk s docs).2 = s) ∧
    (∀ e : String,
      (VectorStore.deleteByDocumentIdE dist cfgOk enumOk dBuildOk s documentId).1 =
        Except.error e →
      (VectorStore.deleteByDocumentIdE dist cfgOk enumOk dBuildOk s documentId).2 = s) ∧
    (VectorStore.addDocumentsE true s docs =
      (Except.ok (), VectorStore.addDocuments s docs)) ∧
    (VectorStore.deleteByDocumentIdE dist true true true s documentId =
      (Except.ok (VectorStore.deleteByDocumentId dist s documentId).1,
        (VectorStore.deleteByDocumentId dist s documentId).2)) := by
  obtain ⟨inst, init⟩ := s
  refine ⟨?_, ?_, ?_, ?_⟩
  · intro e he
    cases inst <;> cases init <;> cases buildOk <;>
      simp [VectorStore.addDocumentsE] at he ⊢
  · intro e he
    cases inst <;> cases init <;> cases cfgOk <;> cases enumOk <;> cases dBuildOk <;>
      simp [VectorStore.deleteByDocumentIdE] at he ⊢ <;>
      (try split at he) <;> simp_all
  · cases inst <;> cases init <;> rfl
  · cases inst with
    | none => cases init <;> rfl
    | some cur =>
      cases init
      · rfl
      · simp only [VectorStore.deleteByDocumentIdE, VectorStore.deleteByDocumentId,
          Bool.not_true, Bool.false_eq_true, if_false]
        split <;> rfl

/-- Witness for C3: a failing insert and a failing rebuild leave a concrete
two-record store untouched. -/
theorem C3_failure_preserves_state_witness :
    (VectorStore.addDocumentsE false
      ({ vectorStoreInstance := some [docA, mkB 1], isInitialized := true }) [mkB 2]).2 =
      ({ vectorStoreInstance := some [docA, mkB 1], isInitialized := true } : LazyState) ∧
    (VectorStore.deleteByDocumentIdE distZero true true false
      ({ vectorStoreInstance := some [docA, mkB 1], isInitialized := true }) ("A")).2 =
      ({ vectorStoreInstance := some [docA, mkB 1], isInitialized := true } : LazyState) := by
  have h := C3_failure_preserves_state distZero false true true false
    ({ vectorStoreInstance := some [docA, mkB 1], isInitialized := true }) [mkB 2] ("A")
  exact ⟨h.1 ("embedding call failed") (by rfl), h.2.1 ("index build failed") (by rfl)⟩

/-- Claim C10 (code defect): with two concurrent first inserts, the schedule
that interleaves both initialization checks before either build resolves makes
the lazy `addDocuments` start two independent index builds; the second publish
overwrites the first, losing the first caller's documents. -/
theorem C10_initialization_race :
    (runConc concInit raceSchedule).buildsStarted = 2 ∧
    (runConc concInit raceSchedule).store.records = [mkB 0] ∧
    docA ∉ (runConc concInit raceSchedule).store.records := by
  refine ⟨rfl, rfl, ?_⟩
  decide

/-- Claim C5 (counterexample): with 10001 stored records, the enumeration used
by `deleteByDocumentId` and `getDocumentCount` drops a record: chunk 10000 of
document `B` is stored but absent from the `k = 10000` empty-query
enumeration, and the reported count is 10000, not 10001. -/
theorem C5_enumeration_counterexample :
    mkB 10000 ∈ hugeStoreC5 ∧
    mkB 10000 ∉ knn distZero ("") 10000 hugeStoreC5 ∧
    VectorStore.getDocumentCount distZero
      ({ vectorStoreInstance := some hugeStoreC5, isInitialized := true }) = 10000 ∧
    hugeStoreC5.length = 10001 := by
  have hknn : knn distZero ("") 10000 hugeStoreC5 = (List.range 10000).map mkB := by
    rw [knn_distZero]
    unfold hugeStoreC5
    have h1 : List.range 10001 = List.range 10000 ++ [10000] := List.range_succ 10000
    rw [h1, List.map_append]
    apply List.take_left'
    simp
  refine ⟨?_, ?_, ?_, ?_⟩
  · exact List.mem_map.mpr ⟨10000, by simp, rfl⟩
  · rw [hknn]
    intro hmem
    obtain ⟨i, hi, hEq⟩ := List.mem_map.mp hmem
    have : i = 10000 := mkB_inj hEq
    rw [List.mem_range] at hi
    omega
  · show (knn distZero ("") 10000 hugeStoreC5).length = 10000
    rw [hknn]
    simp
  · simp [hugeStoreC5]

/-- Claim C5 (amended): whenever at most 10000 records are stored, the
empty-query enumeration with the fixed `k = 10000` bound returns every stored
record exactly once (a permutation of the store), and `getDocumentCount`
returns the exact stored count. -/
theorem C5_enumeration_amended (dist : DistFn) (cur : List Doc)
    (h : cur.length ≤ 10000) :
    (knn dist ("") 10000 cur).Perm cur ∧
    VectorStore.getDocumentCount dist
      ({ vectorStoreInstance := some cur, isInitialized := true }) = cur.length := by
  refine ⟨knn_perm dist ("") 10000 h, ?_⟩
  show (knn dist ("") 10000 cur).length = cur.length
  exact (knn_perm dist ("") 10000 h).length_eq

/-- Witness for C5 (amended) at a concrete two-record store. -/
theorem C5_enumeration_amended_witness :
    (knn distZero ("") 10000 [docA, mkB 0]).Perm [docA, mkB 0] ∧
    VectorStore.getDocumentCount distZero
      ({ vectorStoreInstance := some [docA, mkB 0], isInitialized := true }) = 2 :=
  C5_enumeration_amended distZero [docA, mkB 0] (by decide)

lemma filter_ne_length_add_countP (l : List Doc) (D : String) :
    (l.filter (fun d => d.documentId ≠ D)).length +
      l.countP (fun d => d.documentId = D) = l.length := by
  induction l with
  | nil => simp
  | cons d l ih =>
    rw [List.filter_cons, List.countP_cons]
    by_cases h : d.documentId = D
    · rw [if_neg (by simp [h]), if_pos (by simp [h]), List.length_cons]
      omega
    · rw [if_pos (by simp [h]), if_neg (by simp [h]), List.length_cons, List.length_cons]
      omega

lemma deleteByDocumentId_some (dist : DistFn) (cur : List Doc) (D : String) :
    VectorStore.deleteByDocumentId dist
      ({ vectorStoreInstance := some cur, isInitialized := true }) D =
    (let allDocs := knn dist "" 10000 cur
     let remainingDocs := allDocs.filter (fun doc => doc.documentId ≠ D)
     let deletedCount := allDocs.length - remainingDocs.length
     if remainingDocs.length > 0 then
       (deletedCount, { vectorStoreInstance := some remainingDocs, isInitialized := true })
     else (deletedCount, { vectorStoreInstance := none, isInitialized := false })) := rfl

lemma bigStoreC2_delete_eval :
    knn distZero ("") 10000 bigStoreC2 = docA :: (List.range 9999).map mkB := by
  rw [knn_distZero]
  unfold bigStoreC2
  rw [show (10000 : Nat) = 9999 + 1 from by norm_num, List.take_succ_cons]
  refine congrArg (fun t => docA :: t) ?_
  rw [← List.map_take]
  refine congrArg (List.map mkB) ?_
  rw [List.range_succ]
  exact List.take_left' (by simp)

lemma filter_mkB_all (l : List Nat) :
    ((l.map mkB).filter (fun d => d.documentId ≠ ("A"))) = l.map mkB := by
  apply List.filter_eq_self.mpr
  intro d hd
  obtain ⟨i, _, rfl⟩ := List.mem_map.mp hd
  simp [mkB]

lemma countP_mkB (l : List Nat) :
    (l.map mkB).countP (fun d => d.documentId = ("B")) = l.length := by
  have h : ∀ d ∈ l.map mkB, (fun d : Doc => decide (d.documentId = ("B"))) d = true := by
    intro d hd
    obtain ⟨i, _, rfl⟩ := List.mem_map.mp hd
    simp [mkB]
  rw [List.countP_eq_length.mpr h, List.length_map]

lemma records_some (l : List Doc) :
    ({ vectorStoreInstance := some l, isInitialized := true } : LazyState).records = l := rfl

lemma deleteByDocumentId_eval_pos (dist : DistFn) (cur all rem : List Doc) (D : String)
    (hall : knn dist "" 10000 cur = all)
    (hrem : all.filter (fun doc => doc.documentId ≠ D) = rem)
    (hpos : 0 < rem.length) :
    VectorStore.deleteByDocumentId dist
      ({ vectorStoreInstance := some cur, isInitialized := true }) D =
      (all.length - rem.length,
        { vectorStoreInstance := some rem, isInitialized := true }) := by
  rw [deleteByDocumentId_some]
  simp only [hall, hrem, if_pos hpos]

lemma bigStore_filter_eval :
    (docA :: (List.range 9999).map mkB).filter
      (fun doc => doc.documentId ≠ ("A")) = (List.range 9999).map mkB := by
  rw [List.filter_cons]
  have hA : (decide (docA.documentId ≠ ("A"))) = false := by simp [docA]
  rw [hA]
  simp only [Bool.false_eq_true, if_false]
  exact filter_mkB_all (List.range 9999)

lemma bigStore_delete_eval :
    VectorStore.deleteByDocumentId distZero
      ({ vectorStoreInstance := some bigStoreC2, isInitialized := true }) ("A") =
    ((docA :: (List.range 9999).map mkB).length - ((List.range 9999).map mkB).length,
      { vectorStoreInstance := some ((List.range 9999).map mkB), isInitialized := true }) :=
  deleteByDocumentId_eval_pos distZero bigStoreC2
    (docA :: (List.range 9999).map mkB) ((List.range 9999).map mkB) ("A")
    bigStoreC2_delete_eval bigStore_filter_eval (by simp)

/-- Claim C2 (counterexample): deleting document `A` from a store of 10001
records (one `A`-chunk plus 10000 `B`-chunks) reports 1 removed record, but a
`B`-record is silently lost too: 10000 `B`-records before, 9999 after. -/
theorem C2_delete_counterexample :
    (VectorStore.deleteByDocumentId distZero
        ({ vectorStoreInstance := some bigStoreC2, isInitialized := true }) ("A")).1 = 1 ∧
    bigStoreC2.countP (fun d => d.documentId = ("B")) = 10000 ∧
    ((VectorStore.deleteByDocumentId distZero
        ({ vectorStoreInstance := some bigStoreC2, isInitialized := true }) ("A")).2).records.countP
      (fun d => d.documentId = ("B")) = 9999 := by
  rw [bigStore_delete_eval]
  refine ⟨?_, ?_, ?_⟩
  · simp
  · unfold bigStoreC2
    rw [List.countP_cons]
    have hA : (decide (docA.documentId = ("B"))) = false := by simp [docA]
    rw [hA, countP_mkB]
    simp
  · rw [records_some, countP_mkB]
    simp

/-- Claim C2 (amended): from a store holding at most 10000 records, deleting a
document `D` that has records removes exactly the records with
`documentId = D` (the surviving store is a permutation of the other records),
returns the number of `D`-records previously stored, and every subsequent
search on the resulting state returns no `D`-record. -/
theorem C2_delete_amended (dist : DistFn) (cur : List Doc) (D : String)
    (hlen : cur.length ≤ 10000) (hD : ∃ d ∈ cur, d.documentId = D) :
    (VectorStore.deleteByDocumentId dist
        ({ vectorStoreInstance := some cur, isInitialized := true }) D).1 =
      cur.countP (fun d => d.documentId = D) ∧
    ((VectorStore.deleteByDocumentId dist
        ({ vectorStoreInstance := some cur, isInitialized := true }) D).2).records.Perm
      (cur.filter (fun d => d.documentId ≠ D)) ∧
    (∀ q k d, d ∈ VectorStore.similaritySearch dist
        ((VectorStore.deleteByDocumentId dist
          ({ vectorStoreInstance := some cur, isInitialized := true }) D).2) q k →
      d.documentId ≠ D) := by
  have hperm : (knn dist "" 10000 cur).Perm cur := knn_perm dist "" 10000 hlen
  have hpermF : ((knn dist "" 10000 cur).filter (fun d => d.documentId ≠ D)).Perm
      (cur.filter (fun d => d.documentId ≠ D)) := hperm.filter _
  have hcount : (knn dist "" 10000 cur).length -
      ((knn dist "" 10000 cur).filter (fun d => d.documentId ≠ D)).length =
      cur.countP (fun d => d.documentId = D) := by
    rw [hperm.length_eq, hpermF.length_eq]
    have h2 := filter_ne_length_add_countP cur D
    omega
  have hmemrem : ∀ d ∈ (knn dist "" 10000 cur).filter (fun d => d.documentId ≠ D),
      d.documentId ≠ D := by
    intro d hd
    have h2 := (List.mem_filter.mp hd).2
    simpa using h2
  rw [deleteByDocumentId_some]
  by_cases hpos : ((knn dist "" 10000 cur).filter (fun d => d.documentId ≠ D)).length > 0
  · simp only [if_pos hpos]
    refine ⟨hcount, hpermF, ?_⟩
    intro q k d hd
    have hd2 : d ∈ ((knn dist "" 10000 cur).filter
        (fun d => d.documentId ≠ D)).insertionSort (distLe dist q) := by
      exact List.mem_of_mem_take hd
    rw [List.mem_insertionSort] at hd2
    exact hmemrem d hd2
  · simp only [if_neg hpos]
    have hnil : (knn dist "" 10000 cur).filter (fun d => d.documentId ≠ D) = [] := by
      have := Nat.eq_zero_of_not_pos hpos
      exact List.length_eq_zero.mp this
    refine ⟨hcount, ?_, ?_⟩
    · show ([] : List Doc).Perm (cur.filter (fun d => d.documentId ≠ D))
      rw [hnil] at hpermF
      exact hpermF
    · intro q k d hd
      exact absurd hd (by simp [VectorStore.similaritySearch])

/-- Witness for C2 (amended): deleting `A` from a two-record store removes
exactly the `A`-record. -/
theorem C2_delete_amended_witness :
    (VectorStore.deleteByDocumentId distZero
        ({ vectorStoreInstance := some [docA, mkB 0], isInitialized := true }) ("A")).1 = 1 ∧
    ((VectorStore.deleteByDocumentId distZero
        ({ vectorStoreInstance := some [docA, mkB 0], isInitialized := true }) ("A")).2).records.Perm
      ([docA, mkB 0].filter (fun d => d.documentId ≠ ("A"))) := by
  have h := C2_delete_amended distZero [docA, mkB 0] ("A") (by decide)
    ⟨docA, List.mem_cons_self _ _, rfl⟩
  refine ⟨?_, h.2.1⟩
  rw [h.1]
  decide

lemma deleteByDocumentId_state (dist : DistFn) (l : List Doc) (D : String)
    (hlen : l.length ≤ 10000) :
    ((VectorStore.deleteByDocumentId dist
        ({ vectorStoreInstance := some l, isInitialized := true }) D).2 = LazyState.initial ∧
      l.filter (fun d => d.documentId ≠ D) = []) ∨
    (∃ rem, rem ≠ [] ∧ rem.Perm (l.filter (fun d => d.documentId ≠ D)) ∧
      (VectorStore.deleteByDocumentId dist
        ({ vectorStoreInstance := some l, isInitialized := true }) D).2 =
      { vectorStoreInstance := some rem, isInitialized := true }) := by
  have hperm : (knn dist "" 10000 l).Perm l := knn_perm dist "" 10000 hlen
  have hpermF := hperm.filter (fun d => d.documentId ≠ D)
  rw [deleteByDocumentId_some]
  by_cases hpos : ((knn dist "" 10000 l).filter (fun d => d.documentId ≠ D)).length > 0
  · right
    refine ⟨(knn dist "" 10000 l).filter (fun d => d.documentId ≠ D), ?_, hpermF, ?_⟩
    · intro hnil
      rw [hnil] at hpos
      simp at hpos
    · simp only [if_pos hpos]
  · left
    have hnil : (knn dist "" 10000 l).filter (fun d => d.documentId ≠ D) = [] := by
      apply List.length_eq_zero.mp
      omega
    refine ⟨?_, ?_⟩
    · simp only [if_neg hpos]
      rfl
    · rw [hnil] at hpermF
      exact (hpermF.symm.eq_nil)

lemma applyOp_inv (dist : DistFn) (s : LazyState) (acc : List Doc) (op : Op)
    (hinv : StoreInv s acc) (hok : okStep s op = true) :
    StoreInv (applyOp dist s op).1 (applySpec acc op) := by
  cases op with
  | search q k => exact hinv
  | insert docs =>
    have hne : docs ≠ [] := by
      simp only [okStep, Bool.not_eq_true'] at hok
      exact fun hnil => by rw [hnil] at hok; simp at hok
    rcases hinv with ⟨l, hs, hlne, hperm⟩ | ⟨hs, hacc⟩
    · left
      refine ⟨l ++ docs, ?_, ?_, hperm.append (List.Perm.refl docs)⟩
      · rw [hs]
        rfl
      · simp [hlne]
    · left
      refine ⟨docs, ?_, hne, ?_⟩
      · rw [hs]
        rfl
      · rw [hacc]
        show docs.Perm ([] ++ docs)
        rw [List.nil_append]
  | delete D =>
    rcases hinv with ⟨l, hs, hlne, hperm⟩ | ⟨hs, hacc⟩
    · subst hs
      have hlen : l.length ≤ 10000 := by
        simp only [okStep, records_some] at hok
        simpa using hok
      have hstep := deleteByDocumentId_state dist l D hlen
      have haccF : (l.filter (fun d => d.documentId ≠ D)).Perm
          (acc.filter (fun d => d.documentId ≠ D)) := hperm.filter _
      rcases hstep with ⟨hst, hfe⟩ | ⟨rem, hrne, hrperm, hst⟩
      · right
        refine ⟨hst, ?_⟩
        rw [hfe] at haccF
        exact (haccF.symm.eq_nil)
      · left
        exact ⟨rem, hst, hrne, hrperm.trans haccF⟩
    · right
      subst hs
      refine ⟨rfl, ?_⟩
      rw [hacc]
      rfl

lemma runOps_inv (dist : DistFn) :
    ∀ (ops : List Op) (s : LazyState) (acc : List Doc),
      StoreInv s acc → okTrace dist s ops = true →
      StoreInv (runOps dist s ops).1 (ops.foldl applySpec acc) := by
  intro ops
  induction ops with
  | nil =>
    intro s acc hinv _
    exact hinv
  | cons op rest ih =>
    intro s acc hinv hok
    rw [okTrace, Bool.and_eq_true] at hok
    exact ih (applyOp dist s op).1 (applySpec acc op)
      (applyOp_inv dist s acc op hinv hok.1) hok.2

lemma specRecords_no_insert :
    ∀ (ops : List Op), (∀ docs, Op.insert docs ∉ ops) →
      ops.foldl applySpec [] = [] := by
  intro ops
  induction ops with
  | nil => intro _; rfl
  | cons op rest ih =>
    intro hno
    have h1 : applySpec [] op = [] := by
      cases op with
      | insert docs => exact absurd (List.mem_cons_self _ _) (fun h => hno docs h)
      | search q k => rfl
      | delete D => rfl
    rw [List.foldl_cons, h1]
    exact ih (fun docs hmem => hno docs (List.mem_cons_of_mem _ hmem))

lemma specRecords_mem :
    ∀ (ops : List Op) (acc : List Doc) (d : Doc), d ∈ ops.foldl applySpec acc →
      d ∈ acc ∨ ∃ docs, Op.insert docs ∈ ops ∧ d ∈ docs := by
  intro ops
  induction ops with
  | nil =>
    intro acc d hd
    exact Or.inl hd
  | cons op rest ih =>
    intro acc d hd
    rw [List.foldl_cons] at hd
    rcases ih (applySpec acc op) d hd with h1 | ⟨docs, hmem, hdd⟩
    · cases op with
      | insert docs =>
        rcases List.mem_append.mp h1 with h2 | h2
        · exact Or.inl h2
        · exact Or.inr ⟨docs, List.mem_cons_self _ _, h2⟩
      | search q k => exact Or.inl h1
      | delete D => exact Or.inl (List.mem_of_mem_filter h1)
    · exact Or.inr ⟨docs, List.mem_cons_of_mem _ hmem, hdd⟩

lemma runOps_no_insert_initial (dist : DistFn) (ops : List Op)
    (hok : okTrace dist LazyState.initial ops = true)
    (hno : ∀ docs, Op.insert docs ∉ ops) :
    (runOps dist LazyState.initial ops).1 = LazyState.initial := by
  have hinv := runOps_inv dist ops LazyState.initial [] (Or.inr ⟨rfl, rfl⟩) hok
  rw [show ops.foldl applySpec [] = [] from specRecords_no_insert ops hno] at hinv
  rcases hinv with ⟨l, _, hlne, hperm⟩ | ⟨hs, _⟩
  · exact absurd hperm.eq_nil hlne
  · exact hs

lemma runOps_pair_fst (dist : DistFn) (s : LazyState) (op1 op2 : Op) :
    (runOps dist s [op1, op2]).1 = (applyOp dist (applyOp dist s op1).1 op2).1 := rfl

lemma applyOp_delete_fst (dist : DistFn) (s : LazyState) (D : String) :
    (applyOp dist s (Op.delete D)).1 = (VectorStore.deleteByDocumentId dist s D).2 := rfl

lemma specRecords_pair (op1 op2 : Op) :
    specRecords [op1, op2] = applySpec (applySpec [] op1) op2 := rfl

lemma applySpec_insert (acc docs : List Doc) :
    applySpec acc (Op.insert docs) = acc ++ docs := rfl

lemma applySpec_delete (acc : List Doc) (D : String) :
    applySpec acc (Op.delete D) = acc.filter (fun doc => doc.documentId ≠ D) := rfl

/-- Claim C4 (counterexample): after inserting 10001 records and deleting
document `A`, the index does not contain exactly the inserted-and-not-deleted
records: one `B`-chunk is missing. -/
theorem C4_lifecycle_counterexample :
    ¬ ((runOps distZero LazyState.initial opsC4).1).records.Perm (specRecords opsC4) := by
  intro hperm
  have hops : opsC4 = [Op.insert bigStoreC2, Op.delete ("A")] := rfl
  have hrun : (runOps distZero LazyState.initial opsC4).1 =
      { vectorStoreInstance := some ((List.range 9999).map mkB), isInitialized := true } := by
    rw [hops, runOps_pair_fst]
    rw [show (applyOp distZero LazyState.initial (Op.insert bigStoreC2)).1 =
        ({ vectorStoreInstance := some bigStoreC2, isInitialized := true }) from rfl]
    rw [applyOp_delete_fst, bigStore_delete_eval]
  have hspec : specRecords opsC4 = (List.range 10000).map mkB := by
    rw [hops, specRecords_pair, applySpec_insert, applySpec_delete, List.nil_append]
    unfold bigStoreC2
    rw [List.filter_cons]
    rw [show (decide (docA.documentId ≠ ("A"))) = false from by simp [docA]]
    simp only [Bool.false_eq_true, if_false]
    exact filter_mkB_all (List.range 10000)
  rw [hrun, records_some, hspec] at hperm
  have hlen := hperm.length_eq
  simp at hlen

/-- Claim C4 (amended): along every trace whose inserts are non-empty and
whose deletes run with at most 10000 stored records, the lazy store satisfies
the lifecycle invariant: no index exists before the first insert, the store is
initialized exactly when some inserted-and-not-deleted record remains (so
deleting the last document resets it), the stored records are exactly the
inserted-and-not-deleted records, and every stored record comes from an
insert (no placeholder or sentinel residue). -/
theorem C4_lifecycle_amended (dist : DistFn) (ops : List Op)
    (hok : okTrace dist LazyState.initial ops = true) :
    ((∀ docs, Op.insert docs ∉ ops) →
      (runOps dist LazyState.initial ops).1 = LazyState.initial) ∧
    ((runOps dist LazyState.initial ops).1).records.Perm (specRecords ops) ∧
    (((runOps dist LazyState.initial ops).1).isInitialized = true ↔ specRecords ops ≠ []) ∧
    (∀ d ∈ ((runOps dist LazyState.initial ops).1).records,
      ∃ docs, Op.insert docs ∈ ops ∧ d ∈ docs) := by
  have hinv := runOps_inv dist ops LazyState.initial [] (Or.inr ⟨rfl, rfl⟩) hok
  have hrecords : ((runOps dist LazyState.initial ops).1).records.Perm (specRecords ops) := by
    rcases hinv with ⟨l, hs, _, hperm⟩ | ⟨hs, hacc⟩
    · rw [hs, records_some]
      exact hperm
    · rw [hs]
      unfold specRecords
      rw [hacc]
      exact List.Perm.refl _
  refine ⟨runOps_no_insert_initial dist ops hok, hrecords, ?_, ?_⟩
  · rcases hinv with ⟨l, hs, hlne, hperm⟩ | ⟨hs, hacc⟩
    · rw [hs]
      simp only [true_iff]
      intro hnil
      unfold specRecords at hnil
      rw [hnil] at hperm
      exact hlne (hperm.eq_nil)
    · rw [hs]
      unfold specRecords
      rw [hacc]
      simp [LazyState.initial]
  · intro d hd
    have hd2 : d ∈ specRecords ops := hrecords.mem_iff.mp hd
    rcases specRecords_mem ops [] d hd2 with h1 | h2
    · exact absurd h1 (List.not_mem_nil d)
    · exact h2

/-- Witness for C4 (amended) on the trace insert `A`, insert chunk 0 of `B`,
delete `A`. -/
theorem C4_lifecycle_amended_witness :
    ((runOps distZero LazyState.initial
        [Op.insert [docA], Op.insert [mkB 0], Op.delete ("A")]).1).records.Perm
      (specRecords [Op.insert [docA], Op.insert [mkB 0], Op.delete ("A")]) ∧
    (((runOps distZero LazyState.initial
        [Op.insert [docA], Op.insert [mkB 0], Op.delete ("A")]).1).isInitialized = true ↔
      specRecords [Op.insert [docA], Op.insert [mkB 0], Op.delete ("A")] ≠ []) := by
  have h := C4_lifecycle_amended distZero
    [Op.insert [docA], Op.insert [mkB 0], Op.delete ("A")] (by decide)
  exact ⟨h.2.1, h.2.2.1⟩

lemma extractSources_spec_aux :
    ∀ (docs : List Doc) (m : List (String × Source)) (acc : List Source),
      (∀ d ∈ docs, d.page ≠ 0 ∧ d.source ≠ "") →
      m.map Prod.snd = acc →
      (∀ e ∈ m, e.1 = RagEngine.sourceKey e.2.document e.2.page) →
      (docs.foldl (fun sourceMap doc =>
          let source := jsOrString doc.source ("Unknown")
          let page := jsOrNat doc.page 1
          let key := RagEngine.sourceKey source page
          if sourceMap.any (fun e => e.1 = key) then sourceMap
          else sourceMap ++ [(key, ({ document := source, page := page } : Source))]) m).map
        Prod.snd =
      (docs.map (fun d => ({ document := d.source, page := d.page } : Source))).foldl
        (fun acc s =>
          if acc.any (fun t => t.document = s.document && t.page = s.page) then acc
          else acc ++ [s]) acc := by
  intro docs
  induction docs with
  | nil =>
    intro m acc _ hm _
    simpa using hm
  | cons d docs ih =>
    intro m acc hwf hm hkeys
    have hpage : d.page ≠ 0 := (hwf d (List.mem_cons_self _ _)).1
    have hsrc : d.source ≠ "" := (hwf d (List.mem_cons_self _ _)).2
    have hwf2 : ∀ x ∈ docs, x.page ≠ 0 ∧ x.source ≠ "" :=
      fun x hx => hwf x (List.mem_cons_of_mem _ hx)
    rw [List.foldl_cons, List.map_cons, List.foldl_cons]
    have hsource : jsOrString d.source ("Unknown") = d.source := by
      simp [jsOrString, hsrc]
    have hpage2 : jsOrNat d.page 1 = d.page := by
      simp [jsOrNat, hpage]
    simp only [hsource, hpage2]
    have hany : (m.any (fun e => e.1 = RagEngine.sourceKey d.source d.page)) =
        (acc.any (fun t => t.document = d.source && t.page = d.page)) := by
      apply Bool.eq_iff_iff.mpr
      rw [List.any_eq_true, List.any_eq_true]
      constructor
      · rintro ⟨e, hem, he⟩
        have he2 : e.1 = RagEngine.sourceKey d.source d.page := by simpa using he
        have hk := hkeys e hem
        rw [hk] at he2
        obtain ⟨h1, h2⟩ := sourceKey_inj he2
        refine ⟨e.2, ?_, ?_⟩
        · rw [← hm]
          exact List.mem_map_of_mem Prod.snd hem
        · simp [h1, h2]
      · rintro ⟨t, htm, ht⟩
        rw [← hm] at htm
        obtain ⟨e, hem, rfl⟩ := List.mem_map.mp htm
        refine ⟨e, hem, ?_⟩
        have hk := hkeys e hem
        simp only [Bool.and_eq_true, decide_eq_true_eq] at ht
        simp [hk, ht.1, ht.2]
    by_cases hin : (acc.any (fun t => t.document = d.source && t.page = d.page)) = true
    · rw [hany, if_pos hin, if_pos hin]
      exact ih m acc hwf2 hm hkeys
    · rw [hany, if_neg hin, if_neg hin]
      apply ih
      · exact hwf2
      · rw [List.map_append, hm]
        rfl
      · intro e hem
        rcases List.mem_append.mp hem with h1 | h1
        · exact hkeys e h1
        · rw [List.mem_singleton.mp h1]

lemma pairDedup_pairwise_aux :
    ∀ (l : List Source) (acc : List Source),
      acc.Pairwise (fun s t => ¬ (s.document = t.document ∧ s.page = t.page)) →
      (l.foldl (fun acc s =>
        if acc.any (fun t => t.document = s.document && t.page = s.page) then acc
        else acc ++ [s]) acc).Pairwise
        (fun s t => ¬ (s.document = t.document ∧ s.page = t.page)) := by
  intro l
  induction l with
  | nil =>
    intro acc h
    exact h
  | cons s rest ih =>
    intro acc hacc
    rw [List.foldl_cons]
    by_cases hin : (acc.any (fun t => t.document = s.document && t.page = s.page)) = true
    · rw [if_pos hin]
      exact ih acc hacc
    · rw [if_neg hin]
      apply ih
      rw [List.pairwise_append]
      refine ⟨hacc, List.pairwise_singleton _ _, ?_⟩
      intro t htm s2 hs2
      rw [List.mem_singleton.mp hs2]
      rintro ⟨h1, h2⟩
      apply hin
      rw [List.any_eq_true]
      exact ⟨t, htm, by simp [h1, h2]⟩

/-- Claim C7: the extracted source list has no two entries with the same
(document, page) pair; it keeps exactly one `Source` per distinct pair of the
retrieved records, in first-seen order matching the order of the records (so
records differing only in chunk index contribute a single `Source`).  The
records are assumed wellformed as in the data model: page at least 1 and a
non-empty source filename. -/
theorem C7_extract_sources (docs : List Doc)
    (hwf : ∀ d ∈ docs, 1 ≤ d.page ∧ d.source ≠ "") :
    RagEngine.extractSources docs =
      pairDedup (docs.map (fun d => ({ document := d.source, page := d.page } : Source))) ∧
    (RagEngine.extractSources docs).Pairwise
      (fun s t => ¬ (s.document = t.document ∧ s.page = t.page)) := by
  have hwf2 : ∀ d ∈ docs, d.page ≠ 0 ∧ d.source ≠ "" := by
    intro d hd
    obtain ⟨h1, h2⟩ := hwf d hd
    exact ⟨by omega, h2⟩
  have heq := extractSources_spec_aux docs [] [] hwf2 rfl (by intro e he; simp at he)
  constructor
  · exact heq
  · show (RagEngine.extractSources docs).Pairwise _
    unfold RagEngine.extractSources
    rw [heq]
    exact pairDedup_pairwise_aux _ [] List.Pairwise.nil

/-- Witness for C7 on three concrete records (two sharing document and page,
differing only in chunk index). -/
theorem C7_extract_sources_witness :
    RagEngine.extractSources [docA, mkB 0, mkB 1] =
      pairDedup ([docA, mkB 0, mkB 1].map
        (fun d => ({ document := d.source, page := d.page } : Source))) :=
  (C7_extract_sources [docA, mkB 0, mkB 1] (by decide)).1

lemma queryE_llm_phase (dist : DistFn) (cur : List Doc) (cfg : Bool)
    (llmRes : Except String String) (q : String) (hist : List Message) (hcur : cur ≠ []) :
    RagEngine.queryE dist (Except.ok ()) cfg llmRes
      ({ vectorStoreInstance := some cur, isInitialized := true }) q hist =
      (if !cfg then
        (Except.error (RagEngine.Thrown.genericErr ("GOOGLE_API_KEY is not configured")),
          false)
      else
        match llmRes with
        | Except.error _ =>
          (Except.error (RagEngine.Thrown.genericErr
            ("Failed to generate response from AI service")), true)
        | Except.ok response =>
          (Except.ok ({ answer := response,
                        sources := RagEngine.extractSources (knn dist q 4 cur),
                        disclaimer := DISCLAIMER }), true)) := by
  unfold RagEngine.queryE
  have hss : VectorStore.similaritySearchE dist (Except.ok ())
      ({ vectorStoreInstance := some cur, isInitialized := true }) q 4 =
      Except.ok (knn dist q 4 cur) := rfl
  rw [hss]
  have hlen : ¬ ((knn dist q 4 cur).length = 0) := by
    unfold knn
    rw [List.length_take, List.length_insertionSort]
    have h2 : cur.length ≠ 0 := fun h => hcur (List.length_eq_zero.mp h)
    omega
  dsimp only
  rw [if_neg hlen]

lemma queryE_embed_error (dist : DistFn) (cur : List Doc) (cfg : Bool)
    (llmRes : Except String String) (m q : String) (hist : List Message) :
    RagEngine.queryE dist (Except.error m) cfg llmRes
      ({ vectorStoreInstance := some cur, isInitialized := true }) q hist =
      (Except.error (RagEngine.Thrown.genericErr m), false) := rfl

lemma chatHandler_eq (dist : DistFn) (er : Except String Unit) (cfg : Bool)
    (llmRes : Except String String) (s : LazyState) (q : String) (hist : List Message)
    (r : Except RagEngine.Thrown ChatResponse)
    (hq : ¬ (jsTrim q = ""))
    (hquery : (RagEngine.queryE dist er cfg llmRes s (jsTrim q) hist).1 = r) :
    chatHandler dist er cfg llmRes s q hist = routeWrap r := by
  unfold chatHandler
  rw [if_neg hq, hquery]
  cases r with
  | ok resp => rfl
  | error t => cases t <;> rfl

/-- Claim C8 (counterexample): an embedding-provider failure during a query
(here with message `fetch failed`) surfaces to the caller as the generic 500
Internal-server-error category, not as the distinct 503 AI-service-unavailable
category the claim requires for every embedding-provider failure. -/
theorem C8_error_category_counterexample :
    chatHandler distZero (Except.error ("fetch failed")) true (Except.ok ("ans"))
      ({ vectorStoreInstance := some [mkB 0], isInitialized := true }) ("q") [] =
      Sum.inl ({ statusCode := 500, error := "Internal server error",
                 details := "fetch failed" }) ∧
    ({ statusCode := 500, error := "Internal server error",
       details := "fetch failed" } : ErrResponse).statusCode ≠ 503 := by
  constructor
  · rfl
  · decide

/-- Claim C8 (amended): a failure of the generation call during a query
surfaces as the distinct 503 AI-service-unavailable category, and it is
distinguishable from not-found (deleting an unknown document id gives 404) and
from validation (an empty question gives 400); but an embedding-provider
failure whose message does not contain `AI service`, and a generation-provider
configuration failure, surface as the generic 500 Internal-server-error
category instead. -/
theorem C8_error_categories_amended (dist : DistFn) (cur : List Doc) (q m id : String)
    (hist : List Message) (documentStore : List (String × Nat)) (s2 : LazyState)
    (hcur : cur ≠ []) (hq : ¬ (jsTrim q = ""))
    (hm : jsIncludes m ("AI service") = false)
    (hid : documentStore.lookup id = none) :
    chatHandler dist (Except.ok ()) true (Except.error ("upstream failure"))
      ({ vectorStoreInstance := some cur, isInitialized := true }) q hist =
      Sum.inl ({ statusCode := 503, error := "AI service unavailable",
                 details := "Failed to generate response from AI service" }) ∧
    chatHandler dist (Except.error m) true (Except.ok ("ans"))
      ({ vectorStoreInstance := some cur, isInitialized := true }) q hist =
      Sum.inl ({ statusCode := 500, error := "Internal server error", details := m }) ∧
    chatHandler dist (Except.ok ()) false (Except.ok ("ans"))
      ({ vectorStoreInstance := some cur, isInitialized := true }) q hist =
      Sum.inl ({ statusCode := 500, error := "Internal server error",
                 details := "GOOGLE_API_KEY is not configured" }) ∧
    chatHandler dist (Except.ok ()) true (Except.ok ("ans")) s2 ("") hist =
      Sum.inl ({ statusCode := 400, error := "Validation error",
                 details := "Question is required and must be a non-empty string" }) ∧
    (deleteDocumentHandler dist true true true documentStore s2 id).1 =
      Sum.inl ({ statusCode := 404, error := "Not found",
                 details := "Document with ID " ++ id ++ " not found" }) ∧
    ((503 : Nat) ≠ 404 ∧ (503 : Nat) ≠ 400 ∧ (503 : Nat) ≠ 500 ∧ (404 : Nat) ≠ 400) := by
  refine ⟨?_, ?_, ?_, ?_, ?_, by omega, by omega, by omega, by omega⟩
  · rw [chatHandler_eq dist (Except.ok ()) true (Except.error ("upstream failure"))
      ({ vectorStoreInstance := some cur, isInitialized := true }) q hist
      (Except.error (RagEngine.Thrown.genericErr
        ("Failed to generate response from AI service"))) hq
      (by rw [queryE_llm_phase dist cur true (Except.error ("upstream failure"))
        (jsTrim q) hist hcur]; rfl)]
    rfl
  · rw [chatHandler_eq dist (Except.error m) true (Except.ok ("ans"))
      ({ vectorStoreInstance := some cur, isInitialized := true }) q hist
      (Except.error (RagEngine.Thrown.genericErr m)) hq
      (by rw [queryE_embed_error dist cur true (Except.ok ("ans")) m (jsTrim q) hist])]
    rw [show routeWrap (Except.error (RagEngine.Thrown.genericErr m)) =
        (if jsIncludes m ("AI service") then Sum.inl (errorHandler (AppError.llm m))
         else Sum.inl (errorHandler (AppError.other m))) from rfl]
    rw [hm]
    rfl
  · rw [chatHandler_eq dist (Except.ok ()) false (Except.ok ("ans"))
      ({ vectorStoreInstance := some cur, isInitialized := true }) q hist
      (Except.error (RagEngine.Thrown.genericErr ("GOOGLE_API_KEY is not configured"))) hq
      (by rw [queryE_llm_phase dist cur false (Except.ok ("ans")) (jsTrim q) hist hcur]; rfl)]
    rfl
  · unfold chatHandler
    rw [if_pos (by rfl)]
    rfl
  · unfold deleteDocumentHandler
    rw [hid]
    rfl


/-- Witness for C8 (amended) at concrete inputs. -/
theorem C8_error_categories_amended_witness :
    chatHandler distZero (Except.ok ()) true (Except.error ("upstream failure"))
      ({ vectorStoreInstance := some [mkB 0], isInitialized := true }) ("q") [] =
      Sum.inl ({ statusCode := 503, error := "AI service unavailable",
                 details := "Failed to generate response from AI service" }) ∧
    (deleteDocumentHandler distZero true true true [] LazyState.initial ("nope")).1 =
      Sum.inl ({ statusCode := 404, error := "Not found",
                 details := "Document with ID " ++ ("nope") ++ " not found" }) := by
  have h := C8_error_categories_amended distZero [mkB 0] ("q") ("fetch failed") ("nope")
    [] [] LazyState.initial (by decide) (by decide) (by decide) rfl
  exact ⟨h.1, h.2.2.2.2.1⟩

/-- Claim C9 (counterexample): insert one record with text `alpha`, then
delete a document id that has no records: the store embeds `alpha` once at
insert, then embeds the enumeration query and re-embeds `alpha` during the
rebuild, so the provider is called twice for the same stored text. -/
theorem C9_embedding_counterexample :
    (runOpsEmb distZero LazyState.initial [Op.insert [docA], Op.delete ("B")]).2 =
      ["alpha", "", "alpha"] ∧
    ¬ ((runOpsEmb distZero LazyState.initial
        [Op.insert [docA], Op.delete ("B")]).2.count ("alpha") ≤ 1) := by
  constructor
  · rfl
  · decide

lemma runOpsEmb_count_aux (dist : DistFn) :
    ∀ (ops : List Op) (s : LazyState) (t : String),
      (∀ D, Op.delete D ∉ ops) → (∀ q k, Op.search q k ∈ ops → q ≠ t) →
      (runOpsEmb dist s ops).2.count t = (insertedTexts ops).count t := by
  intro ops
  induction ops with
  | nil =>
    intro s t _ _
    rfl
  | cons op rest ih =>
    intro s t hnd hnq
    have hrest : (runOpsEmb dist (applyOpEmb dist s op).1 rest).2.count t =
        (insertedTexts rest).count t :=
      ih (applyOpEmb dist s op).1 t
        (fun D hD2 => hnd D (List.mem_cons_of_mem _ hD2))
        (fun q k hq => hnq q k (List.mem_cons_of_mem _ hq))
    show ((applyOpEmb dist s op).2 ++ (runOpsEmb dist (applyOpEmb dist s op).1 rest).2).count t
        = (insertedTexts (op :: rest)).count t
    rw [List.count_append, hrest]
    cases op with
    | insert docs =>
      show (VectorStore.addDocumentsEmbeds docs).count t + (insertedTexts rest).count t =
        (docs.map Doc.pageContent ++ insertedTexts rest).count t
      rw [List.count_append]
      rfl
    | search q k =>
      have hq : q ≠ t := hnq q k (List.mem_cons_self _ _)
      show (VectorStore.similaritySearchEmbeds s q).count t + (insertedTexts rest).count t =
        (insertedTexts rest).count t
      have hz : (VectorStore.similaritySearchEmbeds s q).count t = 0 := by
        unfold VectorStore.similaritySearchEmbeds
        rcases s with ⟨inst, init⟩
        cases inst <;> cases init <;> simp [List.count_cons, hq]
      omega
    | delete D =>
      exact absurd (List.mem_cons_self _ _) (hnd D)

/-- Claim C9 (amended): along delete-free traces the embedding provider is
called once per inserted record text (initialization embeds only the real
inserted records, and searches embed only their query), so a text inserted
once and never used as a query is embedded exactly once; but
`DeleteByDocument` on a live store embeds the enumeration query and re-embeds
every surviving record's text, so across traces with deletes a stored text can
be embedded more than once. -/
theorem C9_embedding_calls_amended (dist : DistFn) (ops : List Op) (t : String)
    (hnd : ∀ D, Op.delete D ∉ ops) (hnq : ∀ q k, Op.search q k ∈ ops → q ≠ t) :
    (runOpsEmb dist LazyState.initial ops).2.count t = (insertedTexts ops).count t :=
  runOpsEmb_count_aux dist ops LazyState.initial t hnd hnq

/-- Witness for C9 (amended): the text `alpha` inserted once and never used as
a query is embedded exactly once. -/
theorem C9_embedding_calls_amended_witness :
    (runOpsEmb distZero LazyState.initial
      [Op.insert [docA], Op.search ("hello") 4]).2.count ("alpha") =
      (insertedTexts [Op.insert [docA], Op.search ("hello") 4]).count ("alpha") := by
  apply C9_embedding_calls_amended distZero _ ("alpha")
  · intro D h
    simp at h
  · intro q k h
    simp only [List.mem_cons, List.not_mem_nil, or_false] at h
    rcases h with h | h
    · exact absurd h (by simp)
    · injection h with hq hk
      rw [hq]
      decide

lemma countP_ph_cons (dist : DistFn) (q : String) (l : List Doc)
    (hnoPh : noPh l) :
    ((placeholderDoc :: l).insertionSort (distLe dist q)).countP
      (fun x => !(!x.isPlaceholder)) = 1 := by
  rw [(List.perm_insertionSort (distLe dist q) (placeholderDoc :: l)).countP_eq]
  rw [List.countP_cons]
  have h1 : l.countP (fun x => !(!x.isPlaceholder)) = 0 := by
    rw [List.countP_eq_zero]
    intro d hd
    simp [hnoPh d hd]
  rw [h1]
  simp [placeholderDoc]

lemma filter_notPh_sort (dist : DistFn) (q : String) (l : List Doc) (hnoPh : noPh l) :
    ((placeholderDoc :: l).insertionSort (distLe dist q)).filter
      (fun d => !d.isPlaceholder) = l.insertionSort (distLe dist q) := by
  rw [show (placeholderDoc :: l).insertionSort (distLe dist q) =
      (l.insertionSort (distLe dist q)).orderedInsert (distLe dist q) placeholderDoc from rfl]
  haveI : IsTotal Doc (distLe dist q) := ⟨distLe_total dist q⟩
  haveI : IsTrans Doc (distLe dist q) := ⟨distLe_trans dist q⟩
  rw [filter_orderedInsert_sorted (distLe dist q) (distLe_trans dist q)
    (fun d => !d.isPlaceholder) placeholderDoc _ (List.sorted_insertionSort _ l)]
  rw [if_neg (by simp [placeholderDoc])]
  apply List.filter_eq_self.mpr
  intro d hd
  rw [List.mem_insertionSort] at hd
  simp [hnoPh d hd]

lemma searchB_ph (dist : DistFn) (l : List Doc) (q : String) (k : Nat)
    (hnoPh : noPh l) :
    VectorStoreB.similaritySearch dist (some (placeholderDoc :: l)) q k =
      (knn dist q k l, some (placeholderDoc :: l)) := by
  unfold VectorStoreB.similaritySearch VectorStoreB.getInstance
  refine Prod.ext ?_ rfl
  show ((knn dist q (k + 1) (placeholderDoc :: l)).filter
      (fun d => !d.isPlaceholder)).take k = knn dist q k l
  unfold knn
  rw [take_filter_take (fun d : Doc => !d.isPlaceholder)
    ((placeholderDoc :: l).insertionSort (distLe dist q)) (k + 1) k (by omega)
    (by rw [countP_ph_cons dist q l hnoPh]; omega)]
  rw [filter_notPh_sort dist q l hnoPh]

lemma searchB_sync (dist : DistFn) (l : List Doc) (q : String) (k : Nat)
    (hnoPh : noPh l) :
    VectorStoreB.similaritySearch dist (some l) q k = (knn dist q k l, some l) := by
  unfold VectorStoreB.similaritySearch VectorStoreB.getInstance
  refine Prod.ext ?_ rfl
  show ((knn dist q (k + 1) l).filter (fun d => !d.isPlaceholder)).take k = knn dist q k l
  unfold knn
  have hcount : (l.insertionSort (distLe dist q)).countP (fun x => !(!x.isPlaceholder)) = 0 := by
    rw [(List.perm_insertionSort (distLe dist q) l).countP_eq, List.countP_eq_zero]
    intro d hd
    simp [hnoPh d hd]
  rw [take_filter_take (fun d : Doc => !d.isPlaceholder)
    (l.insertionSort (distLe dist q)) (k + 1) k (by omega)
    (by rw [hcount]; omega)]
  have hall : (l.insertionSort (distLe dist q)).filter (fun d => !d.isPlaceholder) =
      l.insertionSort (distLe dist q) := by
    apply List.filter_eq_self.mpr
    intro d hd
    rw [List.mem_insertionSort] at hd
    simp [hnoPh d hd]
  rw [hall]

lemma searchB_phOnly (dist : DistFn) (q : String) (k : Nat) (sB : Option (List Doc))
    (hB : sB = none ∨ sB = some [placeholderDoc]) :
    VectorStoreB.similaritySearch dist sB q k = ([], some [placeholderDoc]) := by
  have h := searchB_ph dist [] q k (fun d hd => absurd hd (List.not_mem_nil d))
  rcases hB with rfl | rfl
  · unfold VectorStoreB.similaritySearch VectorStoreB.getInstance
    unfold VectorStoreB.similaritySearch VectorStoreB.getInstance at h
    simpa [knn] using h
  · simpa [knn] using h


lemma deleteB_empty (dist : DistFn) (D : String) (sB : Option (List Doc))
    (hB : sB = none ∨ sB = some [placeholderDoc]) :
    VectorStoreB.deleteByDocumentId dist sB D = (0, some [placeholderDoc]) := by
  have hknn : knn dist "" 10000 [placeholderDoc] = [placeholderDoc] := by
    rw [knn_of_length_le dist "" 10000 (by simp)]
    rfl
  have hfilter : [placeholderDoc].filter
      (fun doc => decide (doc.documentId ≠ D) && !doc.isPlaceholder) = [] := by
    simp [placeholderDoc]
  rcases hB with rfl | rfl <;>
  · simp only [VectorStoreB.deleteByDocumentId, VectorStoreB.getInstance]
    rw [hknn, hfilter]
    norm_num

lemma deleteA_eval (dist : DistFn) (l : List Doc) (D : String) (hlen : l.length ≤ 10000) :
    VectorStore.deleteByDocumentId dist
      ({ vectorStoreInstance := some l, isInitialized := true }) D =
      (l.length - ((l.insertionSort (distLe dist "")).filter
          (fun doc => doc.documentId ≠ D)).length,
       if 0 < ((l.insertionSort (distLe dist "")).filter
          (fun doc => doc.documentId ≠ D)).length then
         { vectorStoreInstance := some ((l.insertionSort (distLe dist "")).filter
            (fun doc => doc.documentId ≠ D)), isInitialized := true }
       else { vectorStoreInstance := none, isInitialized := false }) := by
  rw [deleteByDocumentId_some]
  simp only [knn_of_length_le dist "" 10000 hlen, List.length_insertionSort, gt_iff_lt]
  by_cases h : 0 < ((l.insertionSort (distLe dist "")).filter
      (fun doc => doc.documentId ≠ D)).length
  · rw [if_pos h, if_pos h]
  · rw [if_neg h, if_neg h]

lemma filterB_ph_cons (dist : DistFn) (l : List Doc) (D : String) (hnoPh : noPh l) :
    ((placeholderDoc :: l).insertionSort (distLe dist "")).filter
      (fun doc => decide (doc.documentId ≠ D) && !doc.isPlaceholder) =
      (l.insertionSort (distLe dist "")).filter (fun doc => doc.documentId ≠ D) := by
  rw [show (placeholderDoc :: l).insertionSort (distLe dist "") =
      (l.insertionSort (distLe dist "")).orderedInsert (distLe dist "") placeholderDoc from
      rfl]
  haveI : IsTotal Doc (distLe dist "") := ⟨distLe_total dist ""⟩
  haveI : IsTrans Doc (distLe dist "") := ⟨distLe_trans dist ""⟩
  rw [filter_orderedInsert_sorted (distLe dist "") (distLe_trans dist "")
    (fun doc => decide (doc.documentId ≠ D) && !doc.isPlaceholder) placeholderDoc _
    (List.sorted_insertionSort _ l)]
  rw [if_neg (by simp [placeholderDoc])]
  apply List.filter_congr
  intro d hd
  rw [List.mem_insertionSort] at hd
  simp [hnoPh d hd]

lemma deleteB_ph (dist : DistFn) (l : List Doc) (D : String)
    (hnoPh : noPh l) (hlen : l.length ≤ 9999) :
    VectorStoreB.deleteByDocumentId dist (some (placeholderDoc :: l)) D =
      ((l.length : Int) - (((l.insertionSort (distLe dist "")).filter
          (fun doc => doc.documentId ≠ D)).length : Int),
       if 0 < ((l.insertionSort (distLe dist "")).filter
          (fun doc => doc.documentId ≠ D)).length then
         some ((l.insertionSort (distLe dist "")).filter (fun doc => doc.documentId ≠ D))
       else some [placeholderDoc]) := by
  have hlen2 : ((placeholderDoc :: l).insertionSort (distLe dist "")).length =
      l.length + 1 := by
    rw [List.length_insertionSort]
    rfl
  simp only [VectorStoreB.deleteByDocumentId, VectorStoreB.getInstance]
  rw [knn_of_length_le dist "" 10000 (by simp only [List.length_cons]; omega)]
  rw [filterB_ph_cons dist l D hnoPh, hlen2]
  have hc : ((l.length + 1 : Nat) : Int) -
      ((((l.insertionSort (distLe dist "")).filter
        (fun doc => doc.documentId ≠ D)).length : Nat) : Int) - 1 =
      (l.length : Int) - (((l.insertionSort (distLe dist "")).filter
        (fun doc => doc.documentId ≠ D)).length : Int) := by
    push_cast
    ring
  rw [hc]
  by_cases h : 0 < ((l.insertionSort (distLe dist "")).filter
      (fun doc => doc.documentId ≠ D)).length
  · rw [if_pos h, if_pos h]
  · rw [if_neg h, if_neg h]

lemma runOps_cons_snd (dist : DistFn) (s : LazyState) (op : Op) (rest : List Op) :
    (runOps dist s (op :: rest)).2 =
      (applyOp dist s op).2 :: (runOps dist (applyOp dist s op).1 rest).2 := rfl

lemma runOpsB_cons_snd (dist : DistFn) (s : Option (List Doc)) (op : Op) (rest : List Op) :
    (runOpsB dist s (op :: rest)).2 =
      (applyOpB dist s op).2 :: (runOpsB dist (applyOpB dist s op).1 rest).2 := rfl

lemma okTraceC6_cons (dist : DistFn) (s : LazyState) (op : Op) (rest : List Op) :
    okTraceC6 dist s (op :: rest) =
      (okStepC6 s op && okTraceC6 dist (applyOp dist s op).1 rest) := rfl

lemma noPh_append {l1 l2 : List Doc} (h1 : noPh l1) (h2 : noPh l2) : noPh (l1 ++ l2) := by
  intro d hd
  rcases List.mem_append.mp hd with h | h
  · exact h1 d h
  · exact h2 d h

lemma noPh_filter_sort (dist : DistFn) (l : List Doc) (D : String) (hnoPh : noPh l) :
    noPh ((l.insertionSort (distLe dist "")).filter (fun doc => doc.documentId ≠ D)) := by
  intro d hd
  have h1 := List.mem_of_mem_filter hd
  rw [List.mem_insertionSort] at h1
  exact hnoPh d h1

lemma filter_sort_length_le (dist : DistFn) (l : List Doc) (D : String) :
    ((l.insertionSort (distLe dist "")).filter
      (fun doc => doc.documentId ≠ D)).length ≤ l.length := by
  calc ((l.insertionSort (distLe dist "")).filter
      (fun doc => doc.documentId ≠ D)).length
      ≤ (l.insertionSort (distLe dist "")).length := List.length_filter_le _ _
    _ = l.length := List.length_insertionSort _ _

lemma mem_knn {dist : DistFn} {q : String} {k : Nat} {l : List Doc} {d : Doc}
    (h : d ∈ knn dist q k l) : d ∈ l := by
  unfold knn at h
  have h1 := List.mem_of_mem_take h
  rw [List.mem_insertionSort] at h1
  exact h1

lemma runC6_aux (dist : DistFn) :
    ∀ (ops : List Op) (sA : LazyState) (sB : Option (List Doc)),
      okTraceC6 dist sA ops = true → numDeletes ops ≤ 1 →
      SimC6 sA sB (numDeletes ops) →
      (runOps dist sA ops).2 = (runOpsB dist sB ops).2 := by
  intro ops
  induction ops with
  | nil =>
    intro sA sB _ _ _
    rfl
  | cons op rest ih =>
    intro sA sB hok hdel hsim
    rw [okTraceC6_cons, Bool.and_eq_true] at hok
    obtain ⟨hstep, hrest⟩ := hok
    rw [runOps_cons_snd, runOpsB_cons_snd]
    cases op with
    | insert docs =>
      have hstep' : docs ≠ [] ∧ noPh docs := by
        unfold okStepC6 at hstep
        rw [Bool.and_eq_true] at hstep
        refine ⟨?_, ?_⟩
        · intro hnil
          subst hnil
          simp at hstep
        · intro d hd
          simpa using List.all_eq_true.mp hstep.2 d hd
      rcases hsim with ⟨hA, hB⟩ | ⟨l, hlne, hlnoPh, hA, hB⟩
      · subst hA
        have hAnext : (applyOp dist LazyState.initial (Op.insert docs)).1 =
            ({ vectorStoreInstance := some docs, isInitialized := true } : LazyState) := rfl
        have hBnext : (applyOpB dist sB (Op.insert docs)).1 =
            some (placeholderDoc :: docs) := by
          rcases hB with rfl | rfl <;> rfl
        refine congrArg₂ List.cons rfl (ih _ _ hrest hdel ?_)
        rw [hAnext, hBnext]
        exact Or.inr ⟨docs, hstep'.1, hstep'.2, rfl, Or.inl rfl⟩
      · subst hA
        have hAnext : (applyOp dist
            ({ vectorStoreInstance := some l, isInitialized := true } : LazyState)
            (Op.insert docs)).1 =
            ({ vectorStoreInstance := some (l ++ docs), isInitialized := true } :
              LazyState) := rfl
        have hne2 : l ++ docs ≠ [] := by
          intro h
          exact hlne (List.append_eq_nil.mp h).1
        rcases hB with rfl | ⟨rfl, hbud⟩
        · have hBnext : (applyOpB dist (some (placeholderDoc :: l)) (Op.insert docs)).1 =
              some (placeholderDoc :: (l ++ docs)) := rfl
          refine congrArg₂ List.cons rfl (ih _ _ hrest hdel ?_)
          rw [hAnext, hBnext]
          exact Or.inr ⟨l ++ docs, hne2, noPh_append hlnoPh hstep'.2, rfl, Or.inl rfl⟩
        · have hBnext : (applyOpB dist (some l) (Op.insert docs)).1 =
              some (l ++ docs) := rfl
          refine congrArg₂ List.cons rfl (ih _ _ hrest hdel ?_)
          rw [hAnext, hBnext]
          exact Or.inr ⟨l ++ docs, hne2, noPh_append hlnoPh hstep'.2, rfl,
            Or.inr ⟨rfl, hbud⟩⟩
    | search q k =>
      rcases hsim with ⟨hA, hB⟩ | ⟨l, hlne, hlnoPh, hA, hB⟩
      · subst hA
        have hBs := searchB_phOnly dist q k sB hB
        have hhead : (applyOp dist LazyState.initial (Op.search q k)).2 =
            (applyOpB dist sB (Op.search q k)).2 := by
          show Out.searched ([] : List Doc) =
            Out.searched (VectorStoreB.similaritySearch dist sB q k).1
          rw [hBs]
        have hBnext : (applyOpB dist sB (Op.search q k)).1 = some [placeholderDoc] := by
          show (VectorStoreB.similaritySearch dist sB q k).2 = _
          rw [hBs]
        refine congrArg₂ List.cons hhead (ih _ _ hrest hdel ?_)
        rw [hBnext]
        exact Or.inl ⟨rfl, Or.inr rfl⟩
      · subst hA
        rcases hB with rfl | ⟨rfl, hbud⟩
        · have hBs := searchB_ph dist l q k hlnoPh
          have hhead : (applyOp dist
              ({ vectorStoreInstance := some l, isInitialized := true } : LazyState)
              (Op.search q k)).2 =
              (applyOpB dist (some (placeholderDoc :: l)) (Op.search q k)).2 := by
            show Out.searched (knn dist q k l) =
              Out.searched (VectorStoreB.similaritySearch dist
                (some (placeholderDoc :: l)) q k).1
            rw [hBs]
          have hBnext : (applyOpB dist (some (placeholderDoc :: l)) (Op.search q k)).1 =
              some (placeholderDoc :: l) := by
            show (VectorStoreB.similaritySearch dist (some (placeholderDoc :: l)) q k).2 = _
            rw [hBs]
          refine congrArg₂ List.cons hhead (ih _ _ hrest hdel ?_)
          rw [hBnext]
          exact Or.inr ⟨l, hlne, hlnoPh, rfl, Or.inl rfl⟩
        · have hBs := searchB_sync dist l q k hlnoPh
          have hhead : (applyOp dist
              ({ vectorStoreInstance := some l, isInitialized := true } : LazyState)
              (Op.search q k)).2 =
              (applyOpB dist (some l) (Op.search q k)).2 := by
            show Out.searched (knn dist q k l) =
              Out.searched (VectorStoreB.similaritySearch dist (some l) q k).1
            rw [hBs]
          have hBnext : (applyOpB dist (some l) (Op.search q k)).1 = some l := by
            show (VectorStoreB.similaritySearch dist (some l) q k).2 = _
            rw [hBs]
          refine congrArg₂ List.cons hhead (ih _ _ hrest hdel ?_)
          rw [hBnext]
          exact Or.inr ⟨l, hlne, hlnoPh, rfl, Or.inr ⟨rfl, hbud⟩⟩
    | delete d =>
      have hbud1 : numDeletes rest = 0 := by
        have hstepn : numDeletes (Op.delete d :: rest) = numDeletes rest + 1 := rfl
        rw [hstepn] at hdel
        omega
      rcases hsim with ⟨hA, hB⟩ | ⟨l, hlne, hlnoPh, hA, hB⟩
      · subst hA
        have hAdel : VectorStore.deleteByDocumentId dist LazyState.initial d =
            (0, LazyState.initial) := rfl
        have hBdel := deleteB_empty dist d sB hB
        have hhead : (applyOp dist LazyState.initial (Op.delete d)).2 =
            (applyOpB dist sB (Op.delete d)).2 := by
          show Out.deleted (((VectorStore.deleteByDocumentId dist LazyState.initial d).1 :
              Nat) : Int) =
            Out.deleted (VectorStoreB.deleteByDocumentId dist sB d).1
          rw [hAdel, hBdel]
          rfl
        have hBnext : (applyOpB dist sB (Op.delete d)).1 = some [placeholderDoc] := by
          show (VectorStoreB.deleteByDocumentId dist sB d).2 = _
          rw [hBdel]
        refine congrArg₂ List.cons hhead (ih _ _ hrest (by omega) ?_)
        rw [hBnext]
        exact Or.inl ⟨rfl, Or.inr rfl⟩
      · subst hA
        have hlen : l.length ≤ 9999 := of_decide_eq_true hstep
        rcases hB with rfl | ⟨rfl, hbud⟩
        · have hAdel := deleteA_eval dist l d (by omega)
          have hBdel := deleteB_ph dist l d hlnoPh hlen
          have hRle := filter_sort_length_le dist l d
          have hhead : (applyOp dist
              ({ vectorStoreInstance := some l, isInitialized := true } : LazyState)
              (Op.delete d)).2 =
              (applyOpB dist (some (placeholderDoc :: l)) (Op.delete d)).2 := by
            show Out.deleted (((VectorStore.deleteByDocumentId dist
                ({ vectorStoreInstance := some l, isInitialized := true } : LazyState)
                d).1 : Nat) : Int) =
              Out.deleted (VectorStoreB.deleteByDocumentId dist
                (some (placeholderDoc :: l)) d).1
            rw [hAdel, hBdel]
            exact congrArg Out.deleted (Nat.cast_sub hRle)
          by_cases hpos : 0 < ((l.insertionSort (distLe dist "")).filter
              (fun doc => doc.documentId ≠ d)).length
          · have hAnext : (applyOp dist
                ({ vectorStoreInstance := some l, isInitialized := true } : LazyState)
                (Op.delete d)).1 =
                ({ vectorStoreInstance := some ((l.insertionSort (distLe dist "")).filter
                    (fun doc => doc.documentId ≠ d)), isInitialized := true } :
                  LazyState) := by
              show (VectorStore.deleteByDocumentId dist
                ({ vectorStoreInstance := some l, isInitialized := true } : LazyState)
                d).2 = _
              rw [hAdel, if_pos hpos]
            have hBnext : (applyOpB dist (some (placeholderDoc :: l)) (Op.delete d)).1 =
                some ((l.insertionSort (distLe dist "")).filter
                  (fun doc => doc.documentId ≠ d)) := by
              show (VectorStoreB.deleteByDocumentId dist (some (placeholderDoc :: l))
                d).2 = _
              rw [hBdel, if_pos hpos]
            refine congrArg₂ List.cons hhead (ih _ _ hrest (by omega) ?_)
            rw [hAnext, hBnext]
            exact Or.inr ⟨(l.insertionSort (distLe dist "")).filter
                (fun doc => doc.documentId ≠ d),
              List.length_pos.mp hpos, noPh_filter_sort dist l d hlnoPh, rfl,
              Or.inr ⟨rfl, hbud1⟩⟩
          · have hAnext : (applyOp dist
                ({ vectorStoreInstance := some l, isInitialized := true } : LazyState)
                (Op.delete d)).1 = LazyState.initial := by
              show (VectorStore.deleteByDocumentId dist
                ({ vectorStoreInstance := some l, isInitialized := true } : LazyState)
                d).2 = _
              rw [hAdel, if_neg hpos]
              rfl
            have hBnext : (applyOpB dist (some (placeholderDoc :: l)) (Op.delete d)).1 =
                some [placeholderDoc] := by
              show (VectorStoreB.deleteByDocumentId dist (some (placeholderDoc :: l))
                d).2 = _
              rw [hBdel, if_neg hpos]
            refine congrArg₂ List.cons hhead (ih _ _ hrest (by omega) ?_)
            rw [hAnext, hBnext]
            exact Or.inl ⟨rfl, Or.inr rfl⟩
        · exact absurd hbud (by simp [numDeletes])

lemma records_applyOp_noPh (dist : DistFn) (s : LazyState) (op : Op)
    (hs : noPh s.records) (hok : okStepC6 s op = true) :
    noPh ((applyOp dist s op).1).records := by
  rcases s with ⟨inst, init⟩
  cases op with
  | insert docs =>
    have hdocs : noPh docs := by
      unfold okStepC6 at hok
      rw [Bool.and_eq_true] at hok
      intro d hd
      simpa using List.all_eq_true.mp hok.2 d hd
    rcases inst with _ | l <;> cases init
    · exact hdocs
    · exact hdocs
    · exact hdocs
    · exact noPh_append hs hdocs
  | search q k => exact hs
  | delete d =>
    rcases inst with _ | l
    · cases init <;> exact hs
    · cases init
      · exact hs
      · have hlen : l.length ≤ 9999 := of_decide_eq_true hok
        show noPh (((VectorStore.deleteByDocumentId dist
          ({ vectorStoreInstance := some l, isInitialized := true } : LazyState) d).2).records)
        rw [deleteA_eval dist l d (by omega)]
        by_cases hpos : 0 < ((l.insertionSort (distLe dist "")).filter
            (fun doc => doc.documentId ≠ d)).length
        · rw [if_pos hpos]
          exact noPh_filter_sort dist l d hs
        · rw [if_neg hpos]
          intro x hx
          exact absurd hx (List.not_mem_nil x)

lemma runOps_search_noPh (dist : DistFn) :
    ∀ (ops : List Op) (sA : LazyState), okTraceC6 dist sA ops = true →
      noPh sA.records →
      ∀ docs, Out.searched docs ∈ (runOps dist sA ops).2 →
        ∀ d ∈ docs, d.isPlaceholder = false := by
  intro ops
  induction ops with
  | nil =>
    intro sA _ _ docs hmem
    rw [show (runOps dist sA ([] : List Op)).2 = [] from rfl] at hmem
    exact absurd hmem (List.not_mem_nil _)
  | cons op rest ih =>
    intro sA hok hs docs hmem d hd
    rw [okTraceC6_cons, Bool.and_eq_true] at hok
    rw [runOps_cons_snd] at hmem
    rcases List.mem_cons.mp hmem with h1 | h1
    · cases op with
      | insert docs2 => simp [applyOp] at h1
      | search q k =>
        simp only [applyOp, Out.searched.injEq] at h1
        subst h1
        rcases sA with ⟨inst, init⟩
        rcases inst with _ | l
        · cases init <;> exact absurd hd (List.not_mem_nil d)
        · cases init
          · exact absurd hd (List.not_mem_nil d)
          · exact hs d (mem_knn hd)
      | delete dd => simp [applyOp] at h1
    · exact ih (applyOp dist sA op).1 hok.2
        (records_applyOp_noPh dist sA op hs hok.1) docs h1 d hd

/-- Claim C6 (counterexample): on the call sequence insert `A`, insert a `B`
chunk, delete `A`, delete `B`, the lazy implementation reports 1 removed record
for each delete, while the placeholder implementation reports 0 for the second
delete: the first delete rebuilds its index without the sentinel, so the
`- 1` in its count formula undercounts from then on.  The two implementations
are therefore not observationally equivalent. -/
theorem C6_equivalence_counterexample :
    (runOps distZero LazyState.initial
        [Op.insert [docA], Op.insert [mkB 0], Op.delete ("A"), Op.delete ("B")]).2 ≠
      (runOpsB distZero none
        [Op.insert [docA], Op.insert [mkB 0], Op.delete ("A"), Op.delete ("B")]).2 := by
  decide

/-- Claim C6 (amended): the placeholder-based and the lazily-initialized vector
store are observationally equivalent on every call sequence that contains at
most one delete, whose inserts are non-empty and sentinel-free, and whose
deletes run with at most 9999 records stored: both produce the same outputs
(search results and deleted counts), and no search result ever contains a
sentinel record.  With a second delete the counts diverge, as the
counterexample shows. -/
theorem C6_equivalence_amended (dist : DistFn) (ops : List Op)
    (hok : okTraceC6 dist LazyState.initial ops = true)
    (hdel : numDeletes ops ≤ 1) :
    (runOps dist LazyState.initial ops).2 = (runOpsB dist none ops).2 ∧
    (∀ docs, Out.searched docs ∈ (runOpsB dist none ops).2 →
      ∀ d ∈ docs, d.isPlaceholder = false) := by
  have heq := runC6_aux dist ops LazyState.initial none hok hdel
    (Or.inl ⟨rfl, Or.inl rfl⟩)
  refine ⟨heq, ?_⟩
  intro docs hmem d hd
  rw [← heq] at hmem
  exact runOps_search_noPh dist ops LazyState.initial hok
    (fun x hx => absurd hx (List.not_mem_nil x)) docs hmem d hd

theorem C6_equivalence_amended_witness :
    okTraceC6 distZero LazyState.initial
        [Op.insert [docA], Op.search ("q") 4, Op.delete ("A"), Op.search ("q") 4] = true ∧
    numDeletes [Op.insert [docA], Op.search ("q") 4, Op.delete ("A"),
        Op.search ("q") 4] ≤ 1 ∧
    ((runOps distZero LazyState.initial
        [Op.insert [docA], Op.search ("q") 4, Op.delete ("A"), Op.search ("q") 4]).2 =
      (runOpsB distZero none
        [Op.insert [docA], Op.search ("q") 4, Op.delete ("A"), Op.search ("q") 4]).2 ∧
    (∀ docs, Out.searched docs ∈ (runOpsB distZero none
        [Op.insert [docA], Op.search ("q") 4, Op.delete ("A"), Op.search ("q") 4]).2 →
      ∀ d ∈ docs, d.isPlaceholder = false)) :=
  ⟨by decide, by decide,
    C6_equivalence_amended distZero
      [Op.insert [docA], Op.search ("q") 4, Op.delete ("A"), Op.search ("q") 4]
      (by decide) (by decide)⟩
